import Mathlib

/-! chess_aug: board-snapshot decoding and the turn/selection state machine

A shallow embedding of `frontend/src/composables/useChessGame.js`.

* JavaScript strings that come from outside (board snapshots) are lists of
  UTF-16 code units (`List Nat`); `'9'` is code unit 57, `'0'` is 48.
* String constants of the program (piece names, colours, messages) are Lean
  strings.
* The reactive refs of `useChessGame` are the fields of `State`.
* An `async` handler is cut at its `await`: the part before it runs when the
  handler is called and leaves a `Request` outstanding, the part after it runs
  when the answer of the oracle arrives.
-/

namespace ChessAug

/-! ## Values -/

/-- UTF-16 code units of one character. -/
def utf16 (c : Char) : List Nat :=
  if c.toNat < 0x10000 then [c.toNat]
  else [0xD800 + (c.toNat - 0x10000) / 0x400, 0xDC00 + (c.toNat - 0x10000) % 0x400]

/-- Code units of a string literal, the way JavaScript stores it. -/
def js (s : String) : List Nat :=
  s.toList.flatMap utf16

/-- What a `board` / `new_board` field of an oracle answer (and so the
`boardString` ref) can hold. -/
inductive JsBoard where
  /-- a string, as its UTF-16 code units -/
  | str (s : List Nat)
  /-- the field is absent -/
  | undefined
  /-- JSON null -/
  | null
  /-- any other JSON value (number, boolean, array, object); the flag says
  whether its `length` property is the number 180 -/
  | nonString (length180 : Bool)
  deriving DecidableEq, Repr

/-- One entry of the reactive `pieces` array (lines 115-124). -/
structure Piece where
  id : String
  name : String
  x : Nat
  y : Nat
  type : String
  color : String
  bgcolor : String
  bgColor_b : String
  deriving DecidableEq, Repr

/-- JavaScript `a || b` for an operand that is a string or undefined: the
empty string and undefined are falsy. -/
def jsOr (a : Option String) (b : String) : String :=
  match a with
  | some s => if s = "" then b else s
  | none => b

/-- `parseInt(c)` on a one-code-unit string `c` (`none` is NaN): only the
ASCII digits parse; `posStr[k]` past the end is undefined, which is NaN too. -/
def parseInt (c : Option Nat) : Option Nat :=
  match c with
  | some u => if 48 ≤ u ∧ u ≤ 57 then some (u - 48) else none
  | none => none

/-! ## parseBoardString (lines 51-129) -/

/-- `getPieceName` (lines 61-90). -/
def getPieceName (x y : Nat) (isRed : Bool) : String :=
  if isRed then
    if y = 9 then
      jsOr (["车", "马", "相", "仕", "帅", "仕", "相", "马", "车"].get? x) "未知"
    else if y = 7 then "炮"
    else if y = 6 then "兵"
    else "未知"
  else
    if y = 0 then
      jsOr (["车", "马", "象", "士", "将", "士", "象", "马", "车"].get? x) "未知"
    else if y = 2 then "炮"
    else if y = 3 then "卒"
    else "未知"

/-- The object pushed at lines 108-124 for validated coordinates. -/
def mkPiece (x y : Nat) : Piece :=
  let isRed := decide (y ≥ 6)
  let pieceName := getPieceName x y isRed
  let pieceId := (if isRed then "red" else "black") ++ "_" ++ toString x ++ "_" ++ toString y
  { id := pieceId
    name := pieceName
    x := x
    y := y
    type := if isRed then "red" else "black"
    color := if isRed then "#d32f2f" else "#1976d2"
    bgcolor := if isRed then "#ffebee" else "#e3f2fd"
    bgColor_b := if isRed then "#d32f2f" else "#1976d2" }

/-- Body of the loop at lines 93-125 for one offset `i`; `continue` leaves
`pieces` as it is. -/
def slotStep (boardStr : List Nat) (pieces : List Piece) (i : Nat) : List Piece :=
  let posStr := (boardStr.drop i).take 2
  if posStr = [57, 57] then pieces
  else
    match parseInt (posStr.get? 0), parseInt (posStr.get? 1) with
    | some x, some y =>
      if x < 0 ∨ x > 8 ∨ y < 0 ∨ y > 9 then pieces
      else pieces ++ [mkPiece x y]
    | _, _ => pieces

/-- The TypeError messages of the engine (V8 wording); no statement below
depends on the wording. -/
def typeErrorMessage (b : JsBoard) : String :=
  match b with
  | .undefined => "Cannot read properties of undefined (reading 'length')"
  | .null => "Cannot read properties of null (reading 'length')"
  | _ => "boardStr.substr is not a function"

/-- `parseBoardString(boardStr)` run on the array `pieces`: the content of
`pieces` afterwards, and the message of the TypeError when the call throws
(`none` when it returns). The array is emptied first (line 52); reading
`.length` of undefined/null throws; a value whose `length` is not 180 returns
at line 57; a non-string of length 180 throws at `boardStr.substr`. -/
def parseBoardString (pieces : List Piece) (boardStr : JsBoard) :
    List Piece × Option String :=
  let pieces : List Piece := (pieces.take 0)
  match boardStr with
  | .undefined => (pieces, some (typeErrorMessage .undefined))
  | .null => (pieces, some (typeErrorMessage .null))
  | .nonString l =>
    if l then (pieces, some (typeErrorMessage (.nonString l))) else (pieces, none)
  | .str s =>
    if s.length ≠ 180 then (pieces, none)
    else (((List.range 90).map (fun k => 2 * k)).foldl (slotStep s) pieces, none)

/-- A snapshot laid out as the opening position, one slot per cell, row by
row from row 0: an occupied cell holds its own column and row digit, an empty
cell holds `99`. -/
def startBoard : List Nat :=
  js ("001020304050607080" ++ "999999999999999999" ++ "991299999999997299" ++
      "039923994399639983" ++ "999999999999999999" ++ "999999999999999999" ++
      "069926994699669986" ++ "991799999999997799" ++ "999999999999999999" ++
      "091929394959697989")

/-! ## State -/

/-- The object stored in `selectedPiece` at line 141: `{ x, y, piece }`. -/
structure Selection where
  x : Int
  y : Int
  piece : Piece
  deriving DecidableEq, Repr

/-- The refs of `useChessGame` (lines 5-16). `winner` holds whatever the
oracle sent (`none` is undefined). -/
structure State where
  boardString : JsBoard
  currentPlayer : String
  selectedPiece : Option Selection
  gameOver : Bool
  winner : Option String
  loading : Bool
  error : String
  aiThinking : Bool
  gameMode : String
  pieces : List Piece
  deriving DecidableEq, Repr

/-- The fields of an oracle answer that the handlers read. `game_over` is the
truthiness of the field, `message` is `none` when the field is absent. -/
structure Response where
  status : String
  board : JsBoard
  new_board : JsBoard
  game_over : Bool
  winner : Option String
  message : Option String
  deriving DecidableEq, Repr

/-- How an awaited `chessAPI` call ends: it throws (rejected promise, or an
answer without a body, whose `.status` read throws), or it yields data. -/
inductive Reply where
  | throws (message : String)
  | data (response : Response)
  deriving DecidableEq, Repr

/-- An outstanding `chessAPI` call together with what its continuation has
captured: for `movePiece` the arguments sent and the cell `(x, y)` of the
`handleBoardClick` that is waiting for it. -/
inductive Request where
  | initBoard
  | movePiece (board : JsBoard) (moveString : String) (x y : Int)
  | blackAutoMove (board : JsBoard)
  deriving DecidableEq, Repr

/-- The refs, the outstanding oracle calls (oldest first) and the number of
`setTimeout(makeAIMove, 1000)` callbacks that have not fired yet. -/
structure Sys where
  st : State
  pending : List Request
  timers : Nat
  deriving DecidableEq, Repr

/-- State right after `useChessGame()` (lines 5-16). -/
def State.init : State :=
  { boardString := .str []
    currentPlayer := "red"
    selectedPiece := none
    gameOver := false
    winner := some ""
    loading := false
    error := ""
    aiThinking := false
    gameMode := "human_vs_ai"
    pieces := [] }

/-- The system before any event. -/
def Sys.init : Sys :=
  { st := State.init, pending := [], timers := 0 }

/-! ## Handlers -/

/-- `initGame`, lines 24-29: up to the `await`. -/
def initGame (sys : Sys) : Sys :=
  { sys with
    st := { sys.st with loading := true, error := "" }
    pending := sys.pending ++ [Request.initBoard] }

/-- `initGame`, lines 30-47: from the `await` on. A TypeError of
`parseBoardString` lands in the `catch`. -/
def initGameResume (s : State) (r : Reply) : State :=
  let s :=
    match r with
    | .throws _ => { s with error := "连接服务器失败" }
    | .data response =>
      if response.status = "success" then
        let s := { s with boardString := response.board }
        match parseBoardString s.pieces response.board with
        | (pieces, some _) => { s with pieces := pieces, error := "连接服务器失败" }
        | (pieces, none) =>
          { s with
            pieces := pieces
            currentPlayer := "red"
            selectedPiece := none
            gameOver := false
            winner := some "" }
      else { s with error := jsOr response.message "初始化失败" }
  { s with loading := false }

/-- `restartGame` (lines 301-303). -/
def restartGame (sys : Sys) : Sys :=
  initGame sys

/-- `getPieceAt` (lines 132-134). -/
def getPieceAt (s : State) (x y : Int) : Option Piece :=
  s.pieces.find? (fun piece => decide ((piece.x : Int) = x) && decide ((piece.y : Int) = y))

/-- `selectPiece` (lines 137-145): the state afterwards and the value returned. -/
def selectPiece (s : State) (x y : Int) : State × Bool :=
  match getPieceAt s x y with
  | some piece =>
    if piece.type = s.currentPlayer then
      ({ s with selectedPiece := some { x := x, y := y, piece := piece } }, true)
    else (s, false)
  | none => (s, false)

/-- `movePiece`, lines 148-159: up to the `await`; `none` is the
`return false` of line 149. -/
def movePieceBegin (sys : Sys) (toX toY : Int) : Option Sys :=
  match sys.st.selectedPiece with
  | none => none
  | some sel =>
    let fromX := sel.x
    let fromY := sel.y
    let moveString := toString fromX ++ toString fromY ++ toString toX ++ toString toY
    some { sys with
      st := { sys.st with loading := true, error := "" }
      pending := sys.pending ++ [Request.movePiece sys.st.boardString moveString toX toY] }

/-- `movePiece`, lines 161-212: from the `await` on; the system afterwards
and the value returned. -/
def movePieceResume (sys : Sys) (r : Reply) : Sys × Bool :=
  let (sys, ret) : Sys × Bool :=
    match r with
    | .throws _ => ({ sys with st := { sys.st with error := "移动失败" } }, false)
    | .data response =>
      if response.status = "success" then
        let s := { sys.st with boardString := response.board }
        match parseBoardString s.pieces response.board with
        | (pieces, some _) =>
          ({ sys with st := { s with pieces := pieces, error := "移动失败" } }, false)
        | (pieces, none) =>
          let s := { s with pieces := pieces }
          if response.game_over then
            let winnerName := if response.winner = some "red" then "红方" else "黑方"
            ({ sys with
               st := { s with
                 gameOver := true
                 winner := response.winner
                 selectedPiece := none
                 error := "游戏结束！" ++ winnerName ++ "获胜！" } }, true)
          else
            let s := { s with
              currentPlayer := if s.currentPlayer = "red" then "black" else "red"
              selectedPiece := none }
            if s.currentPlayer = "black" ∧ s.gameMode = "human_vs_ai" then
              ({ sys with st := s, timers := sys.timers + 1 }, true)
            else ({ sys with st := s }, true)
      else if response.status = "invalid" then
        ({ sys with st := { sys.st with error := "无效移动: " ++ jsOr response.message "" } }, false)
      else
        ({ sys with st := { sys.st with error := jsOr response.message "移动失败" } }, false)
  ({ sys with st := { sys.st with loading := false } }, ret)

/-- `makeAIMove`, lines 216-235: the guards and the part up to the `await`. -/
def makeAIMove (sys : Sys) : Sys :=
  if sys.st.gameOver ∨ sys.st.loading ∨ sys.st.aiThinking then sys
  else if sys.st.currentPlayer ≠ "black" then sys
  else
    { sys with
      st := { sys.st with aiThinking := true, error := "" }
      pending := sys.pending ++ [Request.blackAutoMove sys.st.boardString] }

/-- `makeAIMove`, lines 238-273: from the `await` on. -/
def makeAIMoveResume (s : State) (r : Reply) : State :=
  let s :=
    match r with
    | .throws message => { s with error := "AI走法失败: " ++ message }
    | .data response =>
      if response.status = "success" then
        let s := { s with boardString := response.new_board }
        match parseBoardString s.pieces response.new_board with
        | (pieces, some message) =>
          { s with pieces := pieces, error := "AI走法失败: " ++ message }
        | (pieces, none) =>
          let s := { s with pieces := pieces }
          if response.game_over then
            let winnerName := if response.winner = some "red" then "红方" else "黑方"
            { s with
              gameOver := true
              winner := response.winner
              selectedPiece := none
              error := "游戏结束！" ++ winnerName ++ "获胜！" }
          else { s with currentPlayer := "red", selectedPiece := none }
      else { s with error := jsOr response.message "AI移动失败" }
  { s with aiThinking := false }

/-- `handleBoardClick`, lines 288-293: what follows `await movePiece(x, y)`. -/
def handleBoardClickResume (sys : Sys) (x y : Int) (success : Bool) : Sys :=
  if !success then
    let (s, selected) := selectPiece sys.st x y
    if !selected then { sys with st := { s with selectedPiece := none } }
    else { sys with st := s }
  else sys

/-- `handleBoardClick`, lines 277-298, up to the `await` inside `movePiece`. -/
def handleBoardClick (sys : Sys) (x y : Int) : Sys :=
  if sys.st.gameOver ∨ sys.st.loading ∨ sys.st.aiThinking then sys
  else if sys.st.gameMode = "human_vs_ai" ∧ sys.st.currentPlayer = "black" then sys
  else
    match sys.st.selectedPiece with
    | some _ =>
      match movePieceBegin sys x y with
      | some sys => sys
      | none => handleBoardClickResume sys x y false
    | none => { sys with st := (selectPiece sys.st x y).1 }

/-! ## Events -/

/-- What can happen to the composable: a call of one of the three commands, a
scheduled `makeAIMove` callback firing, or the answer to the `i`-th
outstanding oracle call arriving. -/
inductive Event where
  | initGame
  | restartGame
  | handleBoardClick (x y : Int)
  | timer
  | response (i : Nat) (r : Reply)
  deriving DecidableEq, Repr

/-- One event, run to completion. An answer resumes the handler that awaits
it: for a move, `movePiece` and then the `handleBoardClick` that called it,
which run back to back in one microtask checkpoint. An event that is not
enabled (no callback scheduled, no such outstanding call) changes nothing. -/
def step (sys : Sys) (e : Event) : Sys :=
  match e with
  | .initGame => initGame sys
  | .restartGame => restartGame sys
  | .handleBoardClick x y => handleBoardClick sys x y
  | .timer =>
    if sys.timers = 0 then sys
    else makeAIMove { sys with timers := sys.timers - 1 }
  | .response i r =>
    match sys.pending.get? i with
    | none => sys
    | some req =>
      let sys := { sys with pending := sys.pending.eraseIdx i }
      match req with
      | .initBoard => { sys with st := initGameResume sys.st r }
      | .movePiece _ _ x y =>
        let (sys, success) := movePieceResume sys r
        handleBoardClickResume sys x y success
      | .blackAutoMove _ => { sys with st := makeAIMoveResume sys.st r }

/-- The system after a sequence of events, from `sys`. -/
def runFrom (sys : Sys) (evs : List Event) : Sys :=
  evs.foldl step sys

/-- The system after a sequence of events, from the initial state. -/
def run (evs : List Event) : Sys :=
  runFrom Sys.init evs

/-! ## The decoder as the specification words it -/

/-- Slot `k` of a snapshot in the words of the specification: the two
characters at offset `2k`; the slot is kept when it is not `99`, both
characters are decimal digits and the first digit is at most 8, and it then
names column = first digit, row = second digit. -/
def specSlot (s : List Nat) (k : Nat) : Option (Nat × Nat) :=
  let c0 := s.getD (2 * k) 0
  let c1 := s.getD (2 * k + 1) 0
  if ¬ (c0 = 57 ∧ c1 = 57) ∧ (48 ≤ c0 ∧ c0 ≤ 57) ∧ (48 ≤ c1 ∧ c1 ≤ 57) ∧ c0 - 48 ≤ 8 then
    some (c0 - 48, c1 - 48)
  else none

/-- The cells named by the kept slots, in increasing slot index. -/
def specDecode (s : List Nat) : List (Nat × Nat) :=
  (List.range 90).filterMap (specSlot s)

/-- A snapshot whose first two slots name river cells, `04` and `45`; the
other 88 slots are `99`. -/
def riverBoard : List Nat :=
  js "0445" ++ List.replicate 176 57

/-! ## Invariant predicates and example traces -/

/-- Whether `parseBoardString` returns rather than throws on the board that
the continuation of `req` reads from the answer `r`. Only `initGame` and
`makeAIMove` answers with status `success` are constrained. -/
def boardDecodable (req : Request) (r : Reply) : Bool :=
  match r with
  | .throws _ => true
  | .data response =>
    if response.status = "success" then
      match req with
      | .initBoard => (parseBoardString [] response.board).2.isNone
      | .movePiece _ _ _ _ => true
      | .blackAutoMove _ => (parseBoardString [] response.new_board).2.isNone
    else true

/-- `boardDecodable` for the event `e` arriving in `sys`. -/
def eventDecodable (sys : Sys) (e : Event) : Bool :=
  match e with
  | .response i r =>
    match sys.pending.get? i with
    | some req => boardDecodable req r
    | none => true
  | _ => true

/-- `eventDecodable` for every event of a sequence run from `sys`. -/
def answersDecodable (sys : Sys) : List Event → Bool
  | [] => true
  | e :: evs => eventDecodable sys e && answersDecodable (step sys e) evs

/-- `pieces` is the decode of `boardString`. -/
def DecodeInv (s : State) : Prop :=
  s.pieces = (parseBoardString [] s.boardString).1

/-- A selection, when there is one, is at a cell that holds a piece of
`currentPlayer`. -/
def SelectionInv (s : State) : Prop :=
  ∀ sel, s.selectedPiece = some sel →
    ∃ p ∈ s.pieces, (p.x : Int) = sel.x ∧ (p.y : Int) = sel.y ∧ p.type = s.currentPlayer

/-- An answer `{ status: 'success', board: b }` with nothing else set, as
`/init` and `/move` give it. -/
def boardReply (b : JsBoard) : Reply :=
  .data { status := "success", board := b, new_board := .undefined, game_over := false,
          winner := none, message := none }

/-- The game is started: `initGame` is called and `/init` answers with the
opening snapshot. -/
def startedTrace : List Event :=
  [.initGame, .response 0 (boardReply (.str startBoard))]

/-- The game is started and the red rook at (0, 9) is selected. -/
def selectTrace : List Event :=
  startedTrace ++ [.handleBoardClick 0 9]

/-- After `selectTrace` the cell (0, 8) is clicked: a move request is
outstanding. -/
def moveInFlightTrace : List Event :=
  selectTrace ++ [.handleBoardClick 0 8]

/-- After `selectTrace` the game is restarted and `/init` answers with status
`success` but without a board. -/
def staleSelectionTrace : List Event :=
  selectTrace ++ [.restartGame, .response 0 (boardReply .undefined)]

/-- After `selectTrace` the rook is moved to (0, 8), the oracle accepts (a
`makeAIMove` callback is scheduled), and before the callback fires the game
is restarted and `/init` has answered. -/
def restartDuringDelayTrace : List Event :=
  moveInFlightTrace ++ [.response 0 (boardReply (.str startBoard)),
    .restartGame, .response 0 (boardReply (.str startBoard))]

/-! ## Predicates and example traces for the request/response cycle -/

/-- The body `{ status: 'success', board: b }` of `boardReply b`. -/
def boardAnswer (b : JsBoard) : Response :=
  { status := "success", board := b, new_board := .undefined, game_over := false,
    winner := none, message := none }

/-- The body `{ status: 'success', board: b, game_over: true, winner: w }`. -/
def gameOverAnswer (b : JsBoard) (w : Option String) : Response :=
  { status := "success", board := b, new_board := .undefined, game_over := true,
    winner := w, message := none }

/-- An answer `{ status: 'success', board: b, game_over: true, winner: w }`. -/
def gameOverReply (b : JsBoard) (w : Option String) : Reply :=
  .data (gameOverAnswer b w)

/-- The body `{ status: 'success', new_board: b, game_over: over, winner: w }`,
as `/ai/black_auto_move` gives it. -/
def autoAnswer (b : JsBoard) (over : Bool) (w : Option String) : Response :=
  { status := "success", board := .undefined, new_board := b, game_over := over,
    winner := w, message := none }

/-- The body `{ status: st, message: m }` of an answer without a board. -/
def statusAnswer (st : String) (m : Option String) : Response :=
  { status := st, board := .undefined, new_board := .undefined, game_over := false,
    winner := none, message := m }

/-- Whether a reply is a failure of the oracle call in the sense of
`movePiece`: the call throws, or the status is neither `success` nor
`invalid`. -/
def Reply.moveFailure (r : Reply) : Bool :=
  match r with
  | .throws _ => true
  | .data response => response.status ≠ "success" && response.status ≠ "invalid"

/-- Whether a reply is a failure of the oracle call in the sense of
`makeAIMove`: the call throws, or the status is not `success`. -/
def Reply.autoFailure (r : Reply) : Bool :=
  match r with
  | .throws _ => true
  | .data response => response.status ≠ "success"

/-- Whether a request is a `chessAPI.movePiece` call. -/
def Request.isMove (req : Request) : Bool :=
  match req with
  | .movePiece _ _ _ _ => true
  | _ => false

/-- Whether a request is a `chessAPI.blackAutoMove` call. -/
def Request.isAuto (req : Request) : Bool :=
  match req with
  | .blackAutoMove _ => true
  | _ => false

/-- Number of outstanding human-move requests. -/
def moveCount (sys : Sys) : Nat :=
  (sys.pending.filter Request.isMove).length

/-- Number of outstanding automated-turn requests. -/
def autoCount (sys : Sys) : Nat :=
  (sys.pending.filter Request.isAuto).length

/-- Whether the event `e` is a call of `initGame` / `restartGame`. -/
def Event.isRestart (e : Event) : Bool :=
  match e with
  | .initGame => true
  | .restartGame => true
  | _ => false

/-- Whether a request is made under the `loading` flag: a
`chessAPI.initBoard` or a `chessAPI.movePiece` call. -/
def Request.isLoading (req : Request) : Bool :=
  !req.isAuto

/-- Number of outstanding `initBoard` and human-move requests. -/
def loadCount (sys : Sys) : Nat :=
  (sys.pending.filter Request.isLoading).length

/-- Every `initGame` / `restartGame` of the sequence, run from `sys`, is
called while no `initBoard` and no human-move request is outstanding (an
automated-turn request may be). -/
def restartsIdle (sys : Sys) : List Event → Bool
  | [] => true
  | e :: evs =>
    (!e.isRestart || loadCount sys == 0) && restartsIdle (step sys e) evs

/-- Whether the event `e` is an answer with status `success`. -/
def Event.isSuccessAnswer (e : Event) : Bool :=
  match e with
  | .response _ (.data answer) => answer.status = "success"
  | _ => false

/-- The game is over and the only oracle calls still outstanding, if any, are
`initBoard` calls. -/
def Terminal (sys : Sys) : Prop :=
  sys.st.gameOver = true ∧ ∀ req ∈ sys.pending, req = Request.initBoard

/-- After `moveInFlightTrace` the move request fails with a network error. -/
def moveFailedTrace : List Event :=
  moveInFlightTrace ++ [.response 0 (.throws "Network Error")]

/-- After `moveInFlightTrace` the oracle answers the move with status
`success` but without a board. -/
def moveWithoutBoardTrace : List Event :=
  moveInFlightTrace ++ [.response 0 (boardReply .undefined)]

/-- A move request is outstanding, the game is restarted and `/init` answers
(the second outstanding call), then a piece is selected and moved again: two
move requests are outstanding. -/
def twoMovesTrace : List Event :=
  moveInFlightTrace ++ [.restartGame, .response 1 (boardReply (.str startBoard)),
    .handleBoardClick 0 9, .handleBoardClick 0 8]

/-- After `twoMovesTrace` the older move request is answered with
`game_over: true`. -/
def gameOverWithStaleMoveTrace : List Event :=
  twoMovesTrace ++ [.response 0 (gameOverReply (.str startBoard) (some "red"))]

/-- The game is started, a rook move is accepted with `game_over: true`. -/
def gameOverTrace : List Event :=
  moveInFlightTrace ++ [.response 0 (gameOverReply (.str startBoard) (some "red"))]

/-- The game is started and a rook move is accepted: it is black's turn and
a `makeAIMove` callback is scheduled. -/
def blackTurnTrace : List Event :=
  moveInFlightTrace ++ [.response 0 (boardReply (.str startBoard))]

/-- After `blackTurnTrace` the scheduled `makeAIMove` fires: an
automated-turn request is outstanding. -/
def autoInFlightTrace : List Event :=
  blackTurnTrace ++ [.timer]

/-- After `selectTrace` the game is restarted and `/init` answers with status
`success` and the three-character board `abc`. -/
def wrongLengthRestartTrace : List Event :=
  selectTrace ++ [.restartGame, .response 0 (boardReply (.str (js "abc")))]

/-- After `moveInFlightTrace` the oracle answers the move with
`{ status: 'success', game_over: true, winner: 'red' }` but without a board. -/
def gameOverWithoutBoardTrace : List Event :=
  moveInFlightTrace ++ [.response 0 (gameOverReply .undefined (some "red"))]

/-- `initGame` is called twice before `/init` answers; after the first answer
a piece is selected and moved, the second `/init` answer resets `loading`,
and a piece is selected and moved again: two move requests are outstanding. -/
def doubleInitTrace : List Event :=
  [.initGame, .restartGame, .response 0 (boardReply (.str startBoard)),
    .handleBoardClick 0 9, .handleBoardClick 0 8,
    .response 0 (boardReply (.str startBoard)),
    .handleBoardClick 0 9, .handleBoardClick 0 8]

/-- While the automated-turn request is outstanding the game is restarted and
`/init` answers; then the automated turn is answered and red selects and
moves the rook. -/
def restartDuringAutoTrace : List Event :=
  autoInFlightTrace ++ [.restartGame, .response 1 (boardReply (.str startBoard)),
    .response 0 (.data (autoAnswer (.str startBoard) false none)),
    .handleBoardClick 0 9, .handleBoardClick 0 8]

/-- A snapshot whose first two slots both name the cell (0, 0); the other 88
slots are `99`. -/
def duplicateBoard : List Nat :=
  js "0000" ++ List.replicate 176 57

/-- The cell read back from a piece id `side_x_y` with one-digit `x` and `y`:
the values of the third-last and the last character. -/
def idCell (id : String) : Option (Nat × Nat) :=
  match id.toList.reverse with
  | y :: _ :: x :: _ => some (x.toNat - 48, y.toNat - 48)
  | _ => none

/-- At most one automated-turn request is outstanding, and `aiThinking` is
true while one is. -/
def AutoInv (sys : Sys) : Prop :=
  autoCount sys ≤ 1 ∧ (0 < autoCount sys → sys.st.aiThinking = true)

/-- At most one `initBoard` or human-move request is outstanding, and
`loading` is true while one is. -/
def FlightInv (sys : Sys) : Prop :=
  loadCount sys ≤ 1 ∧ (0 < loadCount sys → sys.st.loading = true)

/-! ## Lemmas on the decoder -/

theorem take_two_drop (s : List Nat) (i : Nat) (h : i + 1 < s.length) :
    (s.drop i).take 2 = [s.getD i 0, s.getD (i + 1) 0] := by
  induction s generalizing i with
  | nil => simp at h
  | cons a t ih =>
    cases i with
    | zero =>
      cases t with
      | nil => simp at h
      | cons b u => simp
    | succ j =>
      simp at h
      simpa using ih j (by omega)

theorem slotStep_append (s : List Nat) (acc : List Piece) (i : Nat) :
    slotStep s acc i = acc ++ slotStep s [] i := by
  unfold slotStep
  simp only []
  split
  · simp
  · split <;> (try split) <;> simp

theorem foldl_slotStep (s : List Nat) (l : List Nat) (acc : List Piece) :
    l.foldl (slotStep s) acc = acc ++ l.flatMap (slotStep s []) := by
  induction l generalizing acc with
  | nil => simp
  | cons i t ih =>
    rw [List.foldl_cons, ih, slotStep_append, List.flatMap_cons, List.append_assoc]

theorem slotStep_nil_cases (s : List Nat) (i : Nat) :
    slotStep s [] i = [] ∨ ∃ x y, x ≤ 8 ∧ y ≤ 9 ∧ slotStep s [] i = [mkPiece x y] := by
  unfold slotStep
  simp only []
  split
  · exact Or.inl rfl
  · split
    · rename_i x y _ _
      split
      · exact Or.inl rfl
      · rename_i h
        refine Or.inr ⟨x, y, by omega, by omega, by simp⟩
    · exact Or.inl rfl

/-- Every decoded piece is the record built at lines 108-124 for a column in
0..8 and a row in 0..9. -/
theorem mem_parseBoardString (prior : List Piece) (b : JsBoard) (p : Piece)
    (hp : p ∈ (parseBoardString prior b).1) : ∃ x y, x ≤ 8 ∧ y ≤ 9 ∧ p = mkPiece x y := by
  unfold parseBoardString at hp
  cases b with
  | undefined => simp at hp
  | null => simp at hp
  | nonString l => cases l <;> simp at hp
  | str s =>
    simp only [] at hp
    split at hp
    · simp at hp
    · rw [foldl_slotStep] at hp
      simp only [List.take_zero, List.nil_append, List.mem_flatMap] at hp
      obtain ⟨i, _, hi⟩ := hp
      rcases slotStep_nil_cases s i with h | ⟨x, y, hx, hy, h⟩
      · rw [h] at hi; simp at hi
      · rw [h] at hi
        exact ⟨x, y, hx, hy, by simpa using hi⟩

/-- The prior content of `pieces` does not matter (line 52). -/
theorem parseBoardString_prior (prior : List Piece) (b : JsBoard) :
    parseBoardString prior b = parseBoardString [] b := by
  unfold parseBoardString
  simp

theorem mkPiece_x (x y : Nat) : (mkPiece x y).x = x := rfl

theorem mkPiece_y (x y : Nat) : (mkPiece x y).y = y := rfl

theorem mkPiece_type (x y : Nat) : ((mkPiece x y).type = "red" ↔ 6 ≤ y) ∧
    ((mkPiece x y).type ≠ "red" → (mkPiece x y).type = "black") := by
  unfold mkPiece
  by_cases h : 6 ≤ y <;> simp [h]

/-- One slot of a long enough snapshot, source against specification. -/
theorem slotStep_spec (s : List Nat) (k : Nat) (h : 2 * k + 1 < s.length) :
    (slotStep s [] (2 * k)).map (fun p => (p.x, p.y)) = (specSlot s k).toList := by
  unfold slotStep specSlot
  simp only [take_two_drop s (2 * k) h]
  simp only [List.get?_eq_getElem?, List.getElem?_cons_zero, List.getElem?_cons_succ, parseInt]
  generalize s.getD (2 * k) 0 = a
  generalize s.getD (2 * k + 1) 0 = b
  by_cases h99 : a = 57 ∧ b = 57
  · simp [h99]
  · have h99b : ¬ [a, b] = [57, 57] := by simpa using h99
    simp only [h99b, if_false]
    by_cases ha : 48 ≤ a ∧ a ≤ 57
    · by_cases hb : 48 ≤ b ∧ b ≤ 57
      · by_cases hx : a - 48 ≤ 8
        · have hn : ¬ (8 < a - 48 ∨ 9 < b - 48) := by omega
          simp [ha, hb, hx, h99, hn, mkPiece_x, mkPiece_y]
        · have hn : (8 < a - 48 ∨ 9 < b - 48) := by omega
          simp [ha, hb, hx, hn]
      · simp [ha, hb]
    · simp [ha]

theorem flatMap_slotStep_spec (s : List Nat) (l : List Nat)
    (h : ∀ k ∈ l, 2 * k + 1 < s.length) :
    ((l.map (fun k => 2 * k)).flatMap (slotStep s [])).map (fun p => (p.x, p.y)) =
      l.filterMap (specSlot s) := by
  induction l with
  | nil => simp
  | cons k t ih =>
    have hk := slotStep_spec s k (h k (by simp))
    have ht := ih (fun j hj => h j (by simp [hj]))
    rw [List.map_cons, List.flatMap_cons, List.map_append, hk, ht, List.filterMap_cons]
    cases specSlot s k <;> simp

/-! ## Claims on the decoder -/

/-- C1: for a 180-character string and any prior content of `pieces`,
`parseBoardString` returns without throwing and leaves in `pieces`, in
increasing slot index, one piece per kept slot (not `99`, two decimal digits,
first digit at most 8) with x the first digit and y the second; so the number
of pieces is the number of kept slots. -/
theorem C1_parseBoardString_decode (s : List Nat) (prior : List Piece)
    (h : s.length = 180) :
    (parseBoardString prior (.str s)).1.map (fun p => (p.x, p.y)) = specDecode s ∧
    (parseBoardString prior (.str s)).2 = none ∧
    (parseBoardString prior (.str s)).1.length =
      ((List.range 90).filter (fun k => (specSlot s k).isSome)).length := by
  have hmap : (parseBoardString prior (.str s)).1.map (fun p => (p.x, p.y)) = specDecode s := by
    unfold parseBoardString specDecode
    simp only [h, ne_eq, not_true_eq_false, if_false, List.take_zero]
    rw [foldl_slotStep, List.nil_append]
    apply flatMap_slotStep_spec
    intro k hk
    have := List.mem_range.mp hk
    omega
  refine ⟨hmap, ?_, ?_⟩
  · unfold parseBoardString
    simp [h]
  · have hl := congrArg List.length hmap
    rw [List.length_map] at hl
    rw [hl, specDecode]
    generalize List.range 90 = l
    induction l with
    | nil => simp
    | cons k t ih =>
      rw [List.filterMap_cons, List.filter_cons]
      cases hk : specSlot s k <;> simp [ih]

set_option maxRecDepth 100000 in
/-- C1 at the opening snapshot: it has 180 characters and 32 kept slots, and
it decodes to 32 pieces whatever `pieces` held before. -/
theorem C1_parseBoardString_decode_witness :
    startBoard.length = 180 ∧ (specDecode startBoard).length = 32 ∧
    (parseBoardString [mkPiece 0 0] (.str startBoard)).1.length = 32 :=
  ⟨by decide, by decide, by
    rw [(C1_parseBoardString_decode startBoard [mkPiece 0 0] (by decide)).2.2]
    decide⟩

/-- C2: for a string whose length is not 180 and any prior content of
`pieces`, `parseBoardString` returns without throwing and leaves `pieces`
empty. -/
theorem C2_parseBoardString_wrong_length (s : List Nat) (prior : List Piece)
    (h : s.length ≠ 180) :
    parseBoardString prior (.str s) = ([], none) := by
  unfold parseBoardString
  simp [h]

/-- C2 at the three-character string `abc`, with one piece in `pieces` before
the call. -/
theorem C2_parseBoardString_wrong_length_witness :
    (js "abc").length ≠ 180 ∧ parseBoardString [mkPiece 4 9] (.str (js "abc")) = ([], none) :=
  ⟨by decide, C2_parseBoardString_wrong_length (js "abc") [mkPiece 4 9] (by decide)⟩

/-- C3: every piece produced by `parseBoardString` has type `red` exactly
when its row is at least 6, and type `black` otherwise, rows 4 and 5
included. -/
theorem C3_side_from_row (prior : List Piece) (b : JsBoard) (p : Piece)
    (hp : p ∈ (parseBoardString prior b).1) :
    (p.type = "red" ↔ 6 ≤ p.y) ∧ (p.y < 6 → p.type = "black") ∧
    (p.y = 4 ∨ p.y = 5 → p.type = "black") := by
  obtain ⟨x, y, _, _, rfl⟩ := mem_parseBoardString prior b p hp
  have ht := mkPiece_type x y
  rw [mkPiece_y]
  refine ⟨ht.1, fun hlt => ht.2 (fun hr => ?_), fun h45 => ht.2 (fun hr => ?_)⟩
  · have := ht.1.mp hr
    omega
  · have := ht.1.mp hr
    omega

set_option maxRecDepth 100000 in
/-- C3 at the piece decoded from slot `09` of the opening snapshot. -/
theorem C3_side_from_row_witness :
    mkPiece 0 9 ∈ (parseBoardString [] (.str startBoard)).1 ∧
    ((mkPiece 0 9).type = "red" ↔ 6 ≤ (mkPiece 0 9).y) :=
  ⟨by decide, (C3_side_from_row [] (.str startBoard) (mkPiece 0 9) (by decide)).1⟩

set_option maxRecDepth 100000 in
/-- C4 fails as stated: the 180-character snapshot `0445` followed by 88
empty slots decodes to two pieces, on rows 4 and 5. -/
theorem C4_river_rows_counterexample :
    riverBoard.length = 180 ∧
    (parseBoardString [] (.str riverBoard)).1.map (fun p => (p.x, p.y, p.type)) =
      [(0, 4, "black"), (4, 5, "black")] := by
  decide

/-- C4 as amended: every piece produced by `parseBoardString` has a column in
0..8 and a row in 0..9; rows 4 and 5 are not excluded, a piece on them has
type `black`. -/
theorem C4_rows_in_range (prior : List Piece) (b : JsBoard) (p : Piece)
    (hp : p ∈ (parseBoardString prior b).1) :
    p.x ≤ 8 ∧ p.y ≤ 9 ∧ (p.y = 4 ∨ p.y = 5 → p.type = "black") := by
  obtain ⟨x, y, hx, hy, rfl⟩ := mem_parseBoardString prior b p hp
  have ht := mkPiece_type x y
  rw [mkPiece_x, mkPiece_y]
  refine ⟨hx, hy, fun h45 => ht.2 (fun hr => ?_)⟩
  have := ht.1.mp hr
  omega

set_option maxRecDepth 100000 in
/-- C4 as amended, at the piece decoded from slot `04` of the river
snapshot. -/
theorem C4_rows_in_range_witness :
    mkPiece 0 4 ∈ (parseBoardString [] (.str riverBoard)).1 ∧
    (mkPiece 0 4).x ≤ 8 ∧ (mkPiece 0 4).y ≤ 9 ∧
    ((mkPiece 0 4).y = 4 ∨ (mkPiece 0 4).y = 5 → (mkPiece 0 4).type = "black") :=
  ⟨by decide, C4_rows_in_range [] (.str riverBoard) (mkPiece 0 4) (by decide)⟩

theorem mkPiece_name (x y : Nat) (hx : x ≤ 8) (hy : y ≤ 9) :
    (y = 9 → some (mkPiece x y).name =
      ["车", "马", "相", "仕", "帅", "仕", "相", "马", "车"].get? x) ∧
    (y = 0 → some (mkPiece x y).name =
      ["车", "马", "象", "士", "将", "士", "象", "马", "车"].get? x) ∧
    (y = 7 ∨ y = 2 → (mkPiece x y).name = "炮") ∧
    (y = 6 → (mkPiece x y).name = "兵") ∧
    (y = 3 → (mkPiece x y).name = "卒") ∧
    (y ≠ 9 ∧ y ≠ 0 ∧ y ≠ 7 ∧ y ≠ 2 ∧ y ≠ 6 ∧ y ≠ 3 → (mkPiece x y).name = "未知") ∧
    ((mkPiece x y).name = "未知" ↔ y = 1 ∨ y = 4 ∨ y = 5 ∨ y = 8) := by
  interval_cases x <;> interval_cases y <;> decide

/-- C5: the name of a piece produced by `parseBoardString` at `(x, y)` is the
`x`-th red home-rank name on row 9, the `x`-th black home-rank name on row 0,
`炮` on rows 7 and 2, `兵` on row 6, `卒` on row 3 and `未知` on every other
row; so it is `未知` exactly on rows 1, 4, 5 and 8. -/
theorem C5_piece_name (prior : List Piece) (b : JsBoard) (p : Piece)
    (hp : p ∈ (parseBoardString prior b).1) :
    (p.y = 9 → some p.name = ["车", "马", "相", "仕", "帅", "仕", "相", "马", "车"].get? p.x) ∧
    (p.y = 0 → some p.name = ["车", "马", "象", "士", "将", "士", "象", "马", "车"].get? p.x) ∧
    (p.y = 7 ∨ p.y = 2 → p.name = "炮") ∧
    (p.y = 6 → p.name = "兵") ∧
    (p.y = 3 → p.name = "卒") ∧
    (p.y ≠ 9 ∧ p.y ≠ 0 ∧ p.y ≠ 7 ∧ p.y ≠ 2 ∧ p.y ≠ 6 ∧ p.y ≠ 3 → p.name = "未知") ∧
    (p.name = "未知" ↔ p.y = 1 ∨ p.y = 4 ∨ p.y = 5 ∨ p.y = 8) := by
  obtain ⟨x, y, hx, hy, rfl⟩ := mem_parseBoardString prior b p hp
  exact mkPiece_name x y hx hy

set_option maxRecDepth 100000 in
/-- C5 at the piece decoded from slot `49` of the opening snapshot, named
`帅`. -/
theorem C5_piece_name_witness :
    mkPiece 4 9 ∈ (parseBoardString [] (.str startBoard)).1 ∧ (mkPiece 4 9).name = "帅" ∧
    ((mkPiece 4 9).name = "未知" ↔
      (mkPiece 4 9).y = 1 ∨ (mkPiece 4 9).y = 4 ∨ (mkPiece 4 9).y = 5 ∨ (mkPiece 4 9).y = 8) :=
  ⟨by decide, by decide,
    (C5_piece_name [] (.str startBoard) (mkPiece 4 9) (by decide)).2.2.2.2.2.2⟩

/-! ## Lemmas on the handlers -/

theorem getPieceAt_some (s : State) (x y : Int) (q : Piece) (h : getPieceAt s x y = some q) :
    q ∈ s.pieces ∧ (q.x : Int) = x ∧ (q.y : Int) = y := by
  unfold getPieceAt at h
  have hm := List.mem_of_find?_eq_some h
  have hq := List.find?_some h
  simp only [Bool.and_eq_true, decide_eq_true_eq] at hq
  exact ⟨hm, hq.1, hq.2⟩

theorem getPieceAt_none (s : State) (x y : Int) (h : getPieceAt s x y = none) (p : Piece)
    (hp : p ∈ s.pieces) : ¬ ((p.x : Int) = x ∧ (p.y : Int) = y) := by
  unfold getPieceAt at h
  have := List.find?_eq_none.mp h p hp
  simpa using this

/-- C6: in a state whose `pieces` is an output of `parseBoardString`,
`selectPiece(x, y)` returns true exactly when some piece is at `(x, y)` and
its type is `currentPlayer`; it then sets `selectedPiece` to `{x, y, piece}`
for that piece and changes nothing else; when it returns false the state is
unchanged. -/
theorem C6_selectPiece (s : State) (prior : List Piece) (b : JsBoard)
    (hdec : s.pieces = (parseBoardString prior b).1) (x y : Int) :
    ((selectPiece s x y).2 = true ↔
      ∃ p ∈ s.pieces, (p.x : Int) = x ∧ (p.y : Int) = y ∧ p.type = s.currentPlayer) ∧
    (∀ p ∈ s.pieces, (p.x : Int) = x → (p.y : Int) = y → p.type = s.currentPlayer →
      selectPiece s x y =
        ({ s with selectedPiece := some { x := x, y := y, piece := p } }, true)) ∧
    ((selectPiece s x y).2 = false → (selectPiece s x y).1 = s) := by
  have huniq : ∀ p ∈ s.pieces, ∀ q ∈ s.pieces, (p.x : Int) = x → (p.y : Int) = y →
      (q.x : Int) = x → (q.y : Int) = y → p = q := by
    intro p hp q hq hpx hpy hqx hqy
    rw [hdec] at hp hq
    obtain ⟨px, py, _, _, rfl⟩ := mem_parseBoardString prior b p hp
    obtain ⟨qx, qy, _, _, rfl⟩ := mem_parseBoardString prior b q hq
    rw [mkPiece_x] at hpx hqx
    rw [mkPiece_y] at hpy hqy
    have h1 : px = qx := by omega
    have h2 : py = qy := by omega
    rw [h1, h2]
  unfold selectPiece
  cases hg : getPieceAt s x y with
  | none =>
    have hn := getPieceAt_none s x y hg
    refine ⟨?_, ?_, ?_⟩
    · simp only [Bool.false_eq_true, false_iff]
      rintro ⟨p, hp, hx, hy, _⟩
      exact hn p hp ⟨hx, hy⟩
    · intro p hp hx hy _
      exact absurd ⟨hx, hy⟩ (hn p hp)
    · intro _
      rfl
  | some q =>
    obtain ⟨hq, hqx, hqy⟩ := getPieceAt_some s x y q hg
    by_cases ht : q.type = s.currentPlayer
    · simp only [ht, if_true, true_iff]
      refine ⟨⟨q, hq, hqx, hqy, ht⟩, ?_, ?_⟩
      · intro p hp hx hy _
        rw [huniq p hp q hq hx hy hqx hqy]
      · intro hc
        simp at hc
    · simp only [ht, if_false, Bool.false_eq_true, false_iff]
      refine ⟨?_, ?_, ?_⟩
      · rintro ⟨p, hp, hx, hy, hpt⟩
        rw [huniq p hp q hq hx hy hqx hqy] at hpt
        exact ht hpt
      · intro p hp hx hy hpt
        rw [huniq p hp q hq hx hy hqx hqy] at hpt
        exact absurd hpt ht
      · intro _
        trivial

set_option maxRecDepth 100000 in
/-- C6 in the state right after the game has started (red to move): the red
king at (4, 9) can be selected, the black king at (4, 0) cannot and the state
is then unchanged. -/
theorem C6_selectPiece_witness :
    (run startedTrace).st.pieces = (parseBoardString [] (.str startBoard)).1 ∧
    (selectPiece (run startedTrace).st 4 9).2 = true ∧
    (selectPiece (run startedTrace).st 4 0).2 = false ∧
    (selectPiece (run startedTrace).st 4 0).1 = (run startedTrace).st :=
  ⟨by decide, by decide, by decide,
    (C6_selectPiece (run startedTrace).st [] (.str startBoard) (by decide) 4 0).2.2 (by decide)⟩

/-- The two outcomes of `selectPiece`. -/
theorem selectPiece_cases (s : State) (x y : Int) :
    selectPiece s x y = (s, false) ∨
    ∃ q ∈ s.pieces, (q.x : Int) = x ∧ (q.y : Int) = y ∧ q.type = s.currentPlayer ∧
      selectPiece s x y = ({ s with selectedPiece := some { x := x, y := y, piece := q } }, true) := by
  unfold selectPiece
  cases hg : getPieceAt s x y with
  | none => exact Or.inl rfl
  | some q =>
    obtain ⟨hq, hqx, hqy⟩ := getPieceAt_some s x y q hg
    by_cases ht : q.type = s.currentPlayer
    · exact Or.inr ⟨q, hq, hqx, hqy, ht, by simp [ht]⟩
    · exact Or.inl (by simp [ht])

/-- The two outcomes of the fallback of `handleBoardClick` after a failed
move: the selection is cleared, or it is a piece of `currentPlayer` at the
clicked cell. -/
theorem handleBoardClickResume_false (sys : Sys) (x y : Int) :
    handleBoardClickResume sys x y false = { sys with st := { sys.st with selectedPiece := none } } ∨
    ∃ q ∈ sys.st.pieces, (q.x : Int) = x ∧ (q.y : Int) = y ∧ q.type = sys.st.currentPlayer ∧
      handleBoardClickResume sys x y false =
        { sys with st := { sys.st with selectedPiece := some { x := x, y := y, piece := q } } } := by
  unfold handleBoardClickResume
  rcases selectPiece_cases sys.st x y with h | ⟨q, hq, hx, hy, ht, h⟩
  · left
    simp [h]
  · right
    exact ⟨q, hq, hx, hy, ht, by simp [h]⟩

theorem handleBoardClickResume_true (sys : Sys) (x y : Int) :
    handleBoardClickResume sys x y true = sys := by
  simp [handleBoardClickResume]

theorem parse_fst_of_eq (prior : List Piece) (b : JsBoard) (pieces : List Piece)
    (o : Option String) (h : parseBoardString prior b = (pieces, o)) :
    pieces = (parseBoardString [] b).1 := by
  rw [← parseBoardString_prior prior b, h]

theorem decodeInv_initGameResume (s : State) (r : Reply) (h : DecodeInv s) :
    DecodeInv (initGameResume s r) := by
  unfold initGameResume DecodeInv
  cases r with
  | throws m => exact h
  | data response =>
    simp only []
    split
    · split
      · rename_i heq
        exact parse_fst_of_eq _ _ _ _ heq
      · rename_i heq
        exact parse_fst_of_eq _ _ _ _ heq
    · exact h

theorem decodeInv_makeAIMoveResume (s : State) (r : Reply) (h : DecodeInv s) :
    DecodeInv (makeAIMoveResume s r) := by
  unfold makeAIMoveResume DecodeInv
  cases r with
  | throws m => exact h
  | data response =>
    simp only []
    split
    · split
      · rename_i heq
        exact parse_fst_of_eq _ _ _ _ heq
      · rename_i heq
        split
        · exact parse_fst_of_eq _ _ _ _ heq
        · exact parse_fst_of_eq _ _ _ _ heq
    · exact h

theorem decodeInv_movePieceResume (sys : Sys) (r : Reply) (h : DecodeInv sys.st) :
    DecodeInv (movePieceResume sys r).1.st := by
  unfold movePieceResume DecodeInv
  cases r with
  | throws m => exact h
  | data response =>
    simp only []
    repeat' split
    all_goals first | exact h | exact parse_fst_of_eq _ _ _ _ (by assumption)

theorem decodeInv_handleBoardClickResume (sys : Sys) (x y : Int) (b : Bool)
    (h : DecodeInv sys.st) : DecodeInv (handleBoardClickResume sys x y b).st := by
  cases b with
  | true => rw [handleBoardClickResume_true]; exact h
  | false =>
    rcases handleBoardClickResume_false sys x y with e | ⟨q, _, _, _, _, e⟩ <;>
      (rw [e]; exact h)

theorem decodeInv_handleBoardClick (sys : Sys) (x y : Int) (h : DecodeInv sys.st) :
    DecodeInv (handleBoardClick sys x y).st := by
  unfold handleBoardClick
  split
  · exact h
  · split
    · exact h
    · split
      · unfold movePieceBegin
        split
        · rename_i heq
          split at heq
          · exact absurd heq (by simp)
          · injection heq with heq
            rw [← heq]
            exact h
        · exact decodeInv_handleBoardClickResume sys x y false h
      · rcases selectPiece_cases sys.st x y with e | ⟨q, _, _, _, _, e⟩ <;>
          (rw [e]; exact h)

theorem decodeInv_makeAIMove (sys : Sys) (h : DecodeInv sys.st) :
    DecodeInv (makeAIMove sys).st := by
  unfold makeAIMove
  split
  · exact h
  · split
    · exact h
    · exact h

theorem decodeInv_step (sys : Sys) (e : Event) (h : DecodeInv sys.st) :
    DecodeInv (step sys e).st := by
  cases e with
  | initGame => exact h
  | restartGame => exact h
  | handleBoardClick x y => exact decodeInv_handleBoardClick sys x y h
  | timer =>
    unfold step
    simp only []
    split
    · exact h
    · exact decodeInv_makeAIMove _ h
  | response i r =>
    unfold step
    simp only []
    split
    · exact h
    · rename_i req _
      cases req with
      | initBoard => exact decodeInv_initGameResume _ r h
      | movePiece b m x y =>
        exact decodeInv_handleBoardClickResume _ x y _ (decodeInv_movePieceResume _ r h)
      | blackAutoMove b => exact decodeInv_makeAIMoveResume _ r h

theorem decodeInv_runFrom (evs : List Event) (sys : Sys) (h : DecodeInv sys.st) :
    DecodeInv (runFrom sys evs).st := by
  induction evs generalizing sys with
  | nil => exact h
  | cons e t ih => exact ih (step sys e) (decodeInv_step sys e h)

/-- C7: in every state reached from the initial state by a sequence of
events (initGame, restartGame, handleBoardClick, a scheduled makeAIMove
firing, an oracle answer arriving), `pieces` is what `parseBoardString` leaves
in it when run on the current `boardString`, whatever `pieces` held before. -/
theorem C7_pieces_decode_boardString (evs : List Event) (prior : List Piece) :
    (run evs).st.pieces = (parseBoardString prior (run evs).st.boardString).1 := by
  rw [parseBoardString_prior]
  exact decodeInv_runFrom evs Sys.init (by unfold DecodeInv; rfl)

/-! ## The selection invariant -/

theorem selectionInv_of_none (s : State) (h : s.selectedPiece = none) : SelectionInv s := by
  intro sel hsel
  rw [h] at hsel
  cases hsel

theorem parse_snd_of_eq (prior : List Piece) (b : JsBoard) (pieces : List Piece)
    (o : Option String) (h : parseBoardString prior b = (pieces, o)) :
    (parseBoardString [] b).2 = o := by
  rw [← parseBoardString_prior prior b, h]

theorem selectionInv_initGameResume (s : State) (r : Reply) (h : SelectionInv s)
    (hok : boardDecodable .initBoard r = true) : SelectionInv (initGameResume s r) := by
  unfold initGameResume
  cases r with
  | throws m => exact h
  | data response =>
    simp only []
    split
    · rename_i hst
      split
      · rename_i heq
        have hsnd := parse_snd_of_eq _ _ _ _ heq
        simp [boardDecodable, hst, hsnd] at hok
      · exact selectionInv_of_none _ rfl
    · exact h

theorem selectionInv_makeAIMoveResume (s : State) (r : Reply) (b : JsBoard)
    (h : SelectionInv s) (hok : boardDecodable (.blackAutoMove b) r = true) :
    SelectionInv (makeAIMoveResume s r) := by
  unfold makeAIMoveResume
  cases r with
  | throws m => exact h
  | data response =>
    simp only []
    split
    · rename_i hst
      split
      · rename_i heq
        have hsnd := parse_snd_of_eq _ _ _ _ heq
        simp [boardDecodable, hst, hsnd] at hok
      · split
        · exact selectionInv_of_none _ rfl
        · exact selectionInv_of_none _ rfl
    · exact h

/-- When `movePiece` returns true the selection has been cleared. -/
theorem movePieceResume_true (sys : Sys) (r : Reply) (h : (movePieceResume sys r).2 = true) :
    (movePieceResume sys r).1.st.selectedPiece = none := by
  unfold movePieceResume at h ⊢
  cases r with
  | throws m => simp at h
  | data response =>
    simp only [] at h ⊢
    repeat' split
    all_goals first | rfl | (exfalso; revert h; simp_all)

theorem selectionInv_moveAnswer (sys : Sys) (r : Reply) (x y : Int) :
    SelectionInv
      (handleBoardClickResume (movePieceResume sys r).1 x y (movePieceResume sys r).2).st := by
  cases hret : (movePieceResume sys r).2 with
  | true =>
    rw [handleBoardClickResume_true]
    exact selectionInv_of_none _ (movePieceResume_true sys r hret)
  | false =>
    rcases handleBoardClickResume_false (movePieceResume sys r).1 x y with
      e | ⟨q, hq, hx, hy, ht, e⟩
    · rw [e]
      exact selectionInv_of_none _ rfl
    · rw [e]
      intro sel hsel
      injection hsel with hsel
      subst hsel
      exact ⟨q, hq, hx, hy, ht⟩

theorem selectionInv_handleBoardClick (sys : Sys) (x y : Int) (h : SelectionInv sys.st) :
    SelectionInv (handleBoardClick sys x y).st := by
  unfold handleBoardClick
  split
  · exact h
  · split
    · exact h
    · split
      · unfold movePieceBegin
        split
        · rename_i heq
          split at heq
          · exact absurd heq (by simp)
          · injection heq with heq
            rw [← heq]
            exact h
        · rename_i hsel _ _
          rcases handleBoardClickResume_false sys x y with e | ⟨q, hq, hx, hy, ht, e⟩
          · rw [e]
            exact selectionInv_of_none _ rfl
          · rw [e]
            intro sel hs
            injection hs with hs
            subst hs
            exact ⟨q, hq, hx, hy, ht⟩
      · rcases selectPiece_cases sys.st x y with e | ⟨q, hq, hx, hy, ht, e⟩
        · rw [e]
          exact h
        · rw [e]
          intro sel hs
          injection hs with hs
          subst hs
          exact ⟨q, hq, hx, hy, ht⟩

theorem selectionInv_makeAIMove (sys : Sys) (h : SelectionInv sys.st) :
    SelectionInv (makeAIMove sys).st := by
  unfold makeAIMove
  split
  · exact h
  · split
    · exact h
    · exact h

theorem selectionInv_step (sys : Sys) (e : Event) (h : SelectionInv sys.st)
    (hok : eventDecodable sys e = true) : SelectionInv (step sys e).st := by
  cases e with
  | initGame => exact h
  | restartGame => exact h
  | handleBoardClick x y => exact selectionInv_handleBoardClick sys x y h
  | timer =>
    unfold step
    simp only []
    split
    · exact h
    · exact selectionInv_makeAIMove _ h
  | response i r =>
    unfold step
    unfold eventDecodable at hok
    simp only [] at hok ⊢
    split
    · exact h
    · rename_i req hreq
      rw [hreq] at hok
      simp only [] at hok
      cases req with
      | initBoard => exact selectionInv_initGameResume _ r h hok
      | movePiece b m x y => exact selectionInv_moveAnswer _ r x y
      | blackAutoMove b => exact selectionInv_makeAIMoveResume _ r b h hok

theorem selectionInv_runFrom (evs : List Event) (sys : Sys) (h : SelectionInv sys.st)
    (hok : answersDecodable sys evs = true) : SelectionInv (runFrom sys evs).st := by
  induction evs generalizing sys with
  | nil => exact h
  | cons e t ih =>
    unfold answersDecodable at hok
    rw [Bool.and_eq_true] at hok
    exact ih (step sys e) (selectionInv_step sys e h hok.1) hok.2

set_option maxRecDepth 100000 in
/-- C8 at the failing input: the game is started, the red rook at (0, 9) is
selected, the game is restarted and `/init` answers with status `success` but
no board. `parseBoardString` empties `pieces` and throws before line 34 is
reached, so the selection at (0, 9) stays while no piece is on the board. On
the sibling path, a `success` answer with the wrong-length board `abc`,
`parseBoardString` returns, line 34 runs and the selection is cleared. -/
theorem C8_stale_selection :
    (run staleSelectionTrace).st.selectedPiece =
      some { x := 0, y := 9, piece := mkPiece 0 9 } ∧
    (run staleSelectionTrace).st.pieces = [] ∧
    (run wrongLengthRestartTrace).st.selectedPiece = none ∧
    (run wrongLengthRestartTrace).st.pieces = [] := by
  decide

/-- The selection invariant away from the throw: in every state reached by a
sequence of events in which every `initGame` and `makeAIMove` answer with
status `success` carries a board that `parseBoardString` accepts without
throwing (any string does), a selection, when there is one, is at a cell that
holds a piece whose type is `currentPlayer`. -/
theorem selection_valid_of_decodable (evs : List Event)
    (hok : answersDecodable Sys.init evs = true) (sel : Selection)
    (hsel : (run evs).st.selectedPiece = some sel) :
    ∃ p ∈ (run evs).st.pieces,
      (p.x : Int) = sel.x ∧ (p.y : Int) = sel.y ∧ p.type = (run evs).st.currentPlayer :=
  selectionInv_runFrom evs Sys.init (selectionInv_of_none _ rfl) hok sel hsel

set_option maxRecDepth 100000 in
/-- The selection invariant after the game is started and the red rook at
(0, 9) is selected. -/
theorem selection_valid_of_decodable_example :
    answersDecodable Sys.init selectTrace = true ∧
    (run selectTrace).st.selectedPiece = some { x := 0, y := 9, piece := mkPiece 0 9 } ∧
    ∃ p ∈ (run selectTrace).st.pieces,
      (p.x : Int) = 0 ∧ (p.y : Int) = 9 ∧ p.type = (run selectTrace).st.currentPlayer :=
  ⟨by decide, by decide,
    selection_valid_of_decodable selectTrace (by decide) { x := 0, y := 9, piece := mkPiece 0 9 }
      (by decide)⟩

/-! ## The guards -/

/-- C9: when `gameOver`, `loading` or `aiThinking` is true, `handleBoardClick`
leaves every ref unchanged, issues no oracle request and schedules nothing. -/
theorem C9_click_ignored_when_busy (sys : Sys) (x y : Int)
    (h : sys.st.gameOver = true ∨ sys.st.loading = true ∨ sys.st.aiThinking = true) :
    handleBoardClick sys x y = sys ∧ step sys (.handleBoardClick x y) = sys := by
  have hc : handleBoardClick sys x y = sys := by
    unfold handleBoardClick
    rw [if_pos h]
  exact ⟨hc, hc⟩

set_option maxRecDepth 100000 in
/-- C9 while a move request is outstanding (`loading` is true): a click on
(0, 7) changes nothing. -/
theorem C9_click_ignored_when_busy_witness :
    (run moveInFlightTrace).st.loading = true ∧
    (run moveInFlightTrace).pending.length = 1 ∧
    step (run moveInFlightTrace) (.handleBoardClick 0 7) = run moveInFlightTrace :=
  ⟨by decide, by decide,
    (C9_click_ignored_when_busy (run moveInFlightTrace) 0 7 (Or.inr (Or.inl (by decide)))).2⟩

theorem makeAIMove_blocked (sys : Sys)
    (h : sys.st.gameOver = true ∨ sys.st.loading = true ∨ sys.st.aiThinking = true ∨
      sys.st.currentPlayer ≠ "black") : makeAIMove sys = sys := by
  unfold makeAIMove
  by_cases hg : sys.st.gameOver = true ∨ sys.st.loading = true ∨ sys.st.aiThinking = true
  · rw [if_pos hg]
  · rw [if_neg hg]
    have hc : sys.st.currentPlayer ≠ "black" := by
      rcases h with h | h | h | h
      · exact absurd (Or.inl h) hg
      · exact absurd (Or.inr (Or.inl h)) hg
      · exact absurd (Or.inr (Or.inr h)) hg
      · exact h
    rw [if_pos hc]

/-- C10: when `gameOver`, `loading` or `aiThinking` is true or `currentPlayer`
is not `black` in the state in which `makeAIMove` runs, it issues no oracle
request and changes no ref; so a scheduled callback that fires in such a
state only uses up its timer, whatever the state was when it was scheduled. -/
theorem C10_makeAIMove_guard (sys : Sys)
    (h : sys.st.gameOver = true ∨ sys.st.loading = true ∨ sys.st.aiThinking = true ∨
      sys.st.currentPlayer ≠ "black") :
    makeAIMove sys = sys ∧ step sys .timer = { sys with timers := sys.timers - 1 } := by
  refine ⟨makeAIMove_blocked sys h, ?_⟩
  unfold step
  simp only []
  split
  · rename_i h0
    obtain ⟨st, pending, timers⟩ := sys
    simp only at h0
    subst h0
    rfl
  · exact makeAIMove_blocked { sys with timers := sys.timers - 1 } h

set_option maxRecDepth 100000 in
/-- C10 on a callback scheduled when it was black's turn: the game is
restarted during the delay, so the callback fires with red to move and does
nothing. -/
theorem C10_makeAIMove_guard_witness :
    (run (moveInFlightTrace ++ [.response 0 (boardReply (.str startBoard))])).st.currentPlayer
      = "black" ∧
    (run (moveInFlightTrace ++ [.response 0 (boardReply (.str startBoard))])).timers = 1 ∧
    (run restartDuringDelayTrace).timers = 1 ∧
    (run restartDuringDelayTrace).st.currentPlayer ≠ "black" ∧
    step (run restartDuringDelayTrace) .timer =
      { run restartDuringDelayTrace with timers := 0 } :=
  ⟨by decide, by decide, by decide, by decide,
    (C10_makeAIMove_guard (run restartDuringDelayTrace)
      (Or.inr (Or.inr (Or.inr (by decide))))).2⟩

/-! ## Lemmas on the continuations -/

theorem parseBoardString_of_ok (prior : List Piece) (b : JsBoard)
    (h : (parseBoardString [] b).2 = none) :
    parseBoardString prior b = ((parseBoardString [] b).1, none) := by
  rw [parseBoardString_prior]
  exact Prod.ext rfl h

/-- The answer to an outstanding move request resumes `movePiece` and then
`handleBoardClick`. -/
theorem step_moveAnswer (sys : Sys) (i : Nat) (b : JsBoard) (m : String) (x y : Int)
    (r : Reply) (hreq : sys.pending.get? i = some (.movePiece b m x y)) :
    step sys (.response i r) =
      handleBoardClickResume
        (movePieceResume { sys with pending := sys.pending.eraseIdx i } r).1 x y
        (movePieceResume { sys with pending := sys.pending.eraseIdx i } r).2 := by
  unfold step
  simp only [hreq]

/-- The answer to an outstanding automated-turn request resumes
`makeAIMove`. -/
theorem step_autoAnswer (sys : Sys) (i : Nat) (b : JsBoard) (r : Reply)
    (hreq : sys.pending.get? i = some (.blackAutoMove b)) :
    step sys (.response i r) =
      { sys with pending := sys.pending.eraseIdx i, st := makeAIMoveResume sys.st r } := by
  unfold step
  simp only [hreq]

/-- The answer to an outstanding `initBoard` request resumes `initGame`. -/
theorem step_initAnswer (sys : Sys) (i : Nat) (r : Reply)
    (hreq : sys.pending.get? i = some .initBoard) :
    step sys (.response i r) =
      { sys with pending := sys.pending.eraseIdx i, st := initGameResume sys.st r } := by
  unfold step
  simp only [hreq]

/-- `movePiece` after an accepted move that does not end the game. -/
theorem movePieceResume_continue (sys : Sys) (resp : Response)
    (hs : resp.status = "success") (hp : (parseBoardString [] resp.board).2 = none)
    (hg : resp.game_over = false) :
    movePieceResume sys (.data resp) =
      ({ st := { sys.st with
                 boardString := resp.board
                 pieces := (parseBoardString [] resp.board).1
                 currentPlayer := if sys.st.currentPlayer = "red" then "black" else "red"
                 selectedPiece := none
                 loading := false }
         pending := sys.pending
         timers :=
           if (if sys.st.currentPlayer = "red" then "black" else "red") = "black" ∧
               sys.st.gameMode = "human_vs_ai" then sys.timers + 1 else sys.timers }, true) := by
  have h := parseBoardString_of_ok sys.st.pieces resp.board hp
  unfold movePieceResume
  simp only [hs, if_true, h, hg, Bool.false_eq_true, if_false]
  by_cases hc : sys.st.currentPlayer = "red" <;>
    by_cases hm : sys.st.gameMode = "human_vs_ai" <;> simp [hc, hm]

/-- `movePiece` after an accepted move that ends the game. -/
theorem movePieceResume_gameOver (sys : Sys) (resp : Response)
    (hs : resp.status = "success") (hp : (parseBoardString [] resp.board).2 = none)
    (hg : resp.game_over = true) :
    movePieceResume sys (.data resp) =
      ({ sys with
         st := { sys.st with
                 boardString := resp.board
                 pieces := (parseBoardString [] resp.board).1
                 gameOver := true
                 winner := resp.winner
                 selectedPiece := none
                 error := "游戏结束！" ++ (if resp.winner = some "red" then "红方" else "黑方") ++
                   "获胜！"
                 loading := false } }, true) := by
  have h := parseBoardString_of_ok sys.st.pieces resp.board hp
  unfold movePieceResume
  simp only [hs, if_true, h, hg]

/-- `movePiece` after an answer that is not an accepted move: only `error`
and `loading` are written and false is returned. -/
theorem movePieceResume_rejected (sys : Sys) (r : Reply)
    (hr : ∀ resp, r = .data resp → resp.status ≠ "success") :
    ∃ e, movePieceResume sys r =
      ({ sys with st := { sys.st with error := e, loading := false } }, false) := by
  unfold movePieceResume
  cases r with
  | throws m => exact ⟨_, rfl⟩
  | data resp =>
    have hs := hr resp rfl
    simp only [hs, if_false]
    split
    · exact ⟨_, rfl⟩
    · exact ⟨_, rfl⟩

/-- `selectPiece` reads only `pieces` and `currentPlayer`. -/
theorem selectPiece_frame (s : State) (e : String) (l : Bool) (x y : Int) :
    selectPiece { s with error := e, loading := l } x y =
      ({ (selectPiece s x y).1 with error := e, loading := l }, (selectPiece s x y).2) := by
  unfold selectPiece getPieceAt
  simp only []
  split
  · split <;> rfl
  · rfl

/-- `handleBoardClick` with a selection present and no guard in the way: the
move request is issued and only `loading` and `error` are written. -/
theorem handleBoardClick_move (sys : Sys) (x y : Int) (sel : Selection)
    (hg : sys.st.gameOver = false) (hl : sys.st.loading = false)
    (ha : sys.st.aiThinking = false)
    (hturn : ¬ (sys.st.gameMode = "human_vs_ai" ∧ sys.st.currentPlayer = "black"))
    (hsel : sys.st.selectedPiece = some sel) :
    handleBoardClick sys x y =
      { sys with
        st := { sys.st with loading := true, error := "" }
        pending := sys.pending ++
          [Request.movePiece sys.st.boardString
            (toString sel.x ++ toString sel.y ++ toString x ++ toString y) x y] } := by
  unfold handleBoardClick movePieceBegin
  simp [hg, hl, ha, hturn, hsel]

/-- The system after the answer to a move request that is accepted and does
not end the game. -/
theorem moveAnswer_continue (sys : Sys) (i : Nat) (b : JsBoard) (m : String) (x y : Int)
    (resp : Response) (hreq : sys.pending.get? i = some (.movePiece b m x y))
    (hs : resp.status = "success") (hp : (parseBoardString [] resp.board).2 = none)
    (hg : resp.game_over = false) :
    step sys (.response i (.data resp)) =
      { st := { sys.st with
                boardString := resp.board
                pieces := (parseBoardString [] resp.board).1
                currentPlayer := if sys.st.currentPlayer = "red" then "black" else "red"
                selectedPiece := none
                loading := false }
        pending := sys.pending.eraseIdx i
        timers :=
          if (if sys.st.currentPlayer = "red" then "black" else "red") = "black" ∧
              sys.st.gameMode = "human_vs_ai" then sys.timers + 1 else sys.timers } := by
  rw [step_moveAnswer sys i b m x y _ hreq, movePieceResume_continue _ _ hs hp hg]
  exact handleBoardClickResume_true _ x y

/-- The system after the answer to a move request that is accepted and ends
the game. -/
theorem moveAnswer_gameOver (sys : Sys) (i : Nat) (b : JsBoard) (m : String) (x y : Int)
    (resp : Response) (hreq : sys.pending.get? i = some (.movePiece b m x y))
    (hs : resp.status = "success") (hp : (parseBoardString [] resp.board).2 = none)
    (hg : resp.game_over = true) :
    step sys (.response i (.data resp)) =
      { st := { sys.st with
                boardString := resp.board
                pieces := (parseBoardString [] resp.board).1
                gameOver := true
                winner := resp.winner
                selectedPiece := none
                error := "游戏结束！" ++ (if resp.winner = some "red" then "红方" else "黑方") ++
                  "获胜！"
                loading := false }
        pending := sys.pending.eraseIdx i
        timers := sys.timers } := by
  rw [step_moveAnswer sys i b m x y _ hreq, movePieceResume_gameOver _ _ hs hp hg]
  exact handleBoardClickResume_true _ x y

/-- The system after the answer to a move request that is not an accepted
move: the fallback of `handleBoardClick` decides the selection, `error` and
`loading` are written, nothing else. -/
theorem moveAnswer_rejected (sys : Sys) (i : Nat) (b : JsBoard) (m : String) (x y : Int)
    (r : Reply) (hreq : sys.pending.get? i = some (.movePiece b m x y))
    (hr : ∀ resp, r = .data resp → resp.status ≠ "success") :
    ∃ e, step sys (.response i r) =
      { st := { sys.st with
                selectedPiece :=
                  if (selectPiece sys.st x y).2 = true then
                    (selectPiece sys.st x y).1.selectedPiece
                  else none
                error := e
                loading := false }
        pending := sys.pending.eraseIdx i
        timers := sys.timers } := by
  obtain ⟨e, he⟩ := movePieceResume_rejected { sys with pending := sys.pending.eraseIdx i } r hr
  refine ⟨e, ?_⟩
  rw [step_moveAnswer sys i b m x y _ hreq, he]
  unfold handleBoardClickResume
  simp only [Bool.not_false, if_true, selectPiece_frame]
  rcases selectPiece_cases sys.st x y with h | ⟨q, _, _, _, _, h⟩
  · rw [h]
    rfl
  · rw [h]
    rfl

/-- What the fields read after the answer to a move request that is not an
accepted move. -/
theorem moveAnswer_rejected_fields (sys : Sys) (i : Nat) (b : JsBoard) (m : String)
    (x y : Int) (r : Reply) (hreq : sys.pending.get? i = some (.movePiece b m x y))
    (hr : ∀ resp, r = .data resp → resp.status ≠ "success") :
    (step sys (.response i r)).st.boardString = sys.st.boardString ∧
    (step sys (.response i r)).st.pieces = sys.st.pieces ∧
    (step sys (.response i r)).st.currentPlayer = sys.st.currentPlayer ∧
    (step sys (.response i r)).st.gameOver = sys.st.gameOver ∧
    (step sys (.response i r)).st.winner = sys.st.winner ∧
    ((selectPiece sys.st x y).2 = true →
      ∃ q ∈ sys.st.pieces, (q.x : Int) = x ∧ (q.y : Int) = y ∧ q.type = sys.st.currentPlayer ∧
        (step sys (.response i r)).st.selectedPiece = some { x := x, y := y, piece := q }) ∧
    ((selectPiece sys.st x y).2 = false →
      (step sys (.response i r)).st.selectedPiece = none) ∧
    (∀ sel, (step sys (.response i r)).st.selectedPiece = some sel → sel.x = x ∧ sel.y = y) ∧
    (step sys (.response i r)).pending = sys.pending.eraseIdx i ∧
    (step sys (.response i r)).timers = sys.timers := by
  obtain ⟨e, he⟩ := moveAnswer_rejected sys i b m x y r hreq hr
  rw [he]
  refine ⟨rfl, rfl, rfl, rfl, rfl, ?_, ?_, ?_, rfl, rfl⟩
  · intro ht
    rcases selectPiece_cases sys.st x y with h | ⟨q, hq, hx, hy, hty, h⟩
    · rw [h] at ht
      cases ht
    · refine ⟨q, hq, hx, hy, hty, ?_⟩
      simp only [h, if_true]
  · intro hf
    simp only [hf, Bool.false_eq_true, if_false]
  · intro sel hsel
    rcases selectPiece_cases sys.st x y with h | ⟨q, hq, hx, hy, hty, h⟩
    · simp only [h, Bool.false_eq_true, if_false] at hsel
      cases hsel
    · simp only [h, if_true] at hsel
      injection hsel with hsel
      subst hsel
      exact ⟨rfl, rfl⟩

/-! ## Claims on the human move -/

/-- The accepted move away from the throw: when `handleBoardClick(x, y)` runs
with a selection present (and no
guard in the way) it issues the move request; when the oracle answers that
request with status `success`, `game_over` false and a board that
`parseBoardString` accepts without throwing (any string), then `boardString`
is `response.board`, `pieces` is its decode, `currentPlayer` is flipped,
`selectedPiece` is null, and one more `makeAIMove` callback is scheduled when
the new `currentPlayer` is `black` and `gameMode` is `human_vs_ai`, none
otherwise; no request is issued. -/
theorem move_accepted_of_decodable (sys : Sys) (x y : Int) (sel : Selection) (resp : Response)
    (hg : sys.st.gameOver = false) (hl : sys.st.loading = false)
    (ha : sys.st.aiThinking = false)
    (hturn : ¬ (sys.st.gameMode = "human_vs_ai" ∧ sys.st.currentPlayer = "black"))
    (hsel : sys.st.selectedPiece = some sel)
    (hs : resp.status = "success") (hover : resp.game_over = false)
    (hp : (parseBoardString [] resp.board).2 = none) :
    handleBoardClick sys x y =
      { sys with
        st := { sys.st with loading := true, error := "" }
        pending := sys.pending ++
          [Request.movePiece sys.st.boardString
            (toString sel.x ++ toString sel.y ++ toString x ++ toString y) x y] } ∧
    ∀ (now : Sys) (i : Nat) (b : JsBoard) (m : String),
      now.pending.get? i = some (.movePiece b m x y) →
      (step now (.response i (.data resp))).st.boardString = resp.board ∧
      (step now (.response i (.data resp))).st.pieces = (parseBoardString [] resp.board).1 ∧
      (step now (.response i (.data resp))).st.currentPlayer =
        (if now.st.currentPlayer = "red" then "black" else "red") ∧
      (step now (.response i (.data resp))).st.selectedPiece = none ∧
      (step now (.response i (.data resp))).timers =
        (if (step now (.response i (.data resp))).st.currentPlayer = "black" ∧
            now.st.gameMode = "human_vs_ai" then now.timers + 1 else now.timers) ∧
      (step now (.response i (.data resp))).pending = now.pending.eraseIdx i ∧
      (step now (.response i (.data resp))).st.gameOver = now.st.gameOver ∧
      (step now (.response i (.data resp))).st.winner = now.st.winner := by
  refine ⟨handleBoardClick_move sys x y sel hg hl ha hturn hsel, ?_⟩
  intro now i b m hreq
  rw [moveAnswer_continue now i b m x y resp hreq hs hp hover]
  exact ⟨rfl, rfl, rfl, rfl, rfl, rfl, rfl, rfl⟩

set_option maxRecDepth 100000 in
/-- Scenario B with the rook: (0, 9) is selected, (0, 8) is clicked,
the oracle accepts; the turn goes to black, the selection is cleared and one
`makeAIMove` callback is scheduled. -/
theorem move_accepted_of_decodable_example :
    (run selectTrace).st.selectedPiece = some { x := 0, y := 9, piece := mkPiece 0 9 } ∧
    (run moveInFlightTrace).pending = [Request.movePiece (.str startBoard) "0908" 0 8] ∧
    (step (run moveInFlightTrace)
      (.response 0 (.data (boardAnswer (.str startBoard))))).st.selectedPiece = none ∧
    (step (run moveInFlightTrace)
      (.response 0 (.data (boardAnswer (.str startBoard))))).st.currentPlayer = "black" ∧
    (step (run moveInFlightTrace)
      (.response 0 (.data (boardAnswer (.str startBoard))))).timers = 1 :=
  ⟨by decide, by decide,
    ((move_accepted_of_decodable (run selectTrace) 0 8 { x := 0, y := 9, piece := mkPiece 0 9 }
      (boardAnswer (.str startBoard)) (by decide) (by decide) (by decide) (by decide)
      (by decide) (by decide) (by decide) (by decide)).2
        (run moveInFlightTrace) 0 (.str startBoard) "0908" (by decide)).2.2.2.1,
    by decide, by decide⟩

set_option maxRecDepth 100000 in
/-- C11 at the failing input: (0, 9) is selected, (0, 8) is clicked and the
oracle answers `{ status: 'success', game_over: false }` without a board.
`boardString` becomes undefined and `pieces` empty, but `currentPlayer` is
still `red` and no `makeAIMove` callback is scheduled. -/
theorem C11_success_without_board :
    (run moveInFlightTrace).st.currentPlayer = "red" ∧
    (run moveInFlightTrace).st.gameMode = "human_vs_ai" ∧
    (run moveInFlightTrace).timers = 0 ∧
    (run moveWithoutBoardTrace).st.boardString = .undefined ∧
    (run moveWithoutBoardTrace).st.pieces = [] ∧
    (run moveWithoutBoardTrace).st.currentPlayer = "red" ∧
    (run moveWithoutBoardTrace).st.selectedPiece = none ∧
    (run moveWithoutBoardTrace).timers = 0 := by
  decide

/-- C12: when the oracle answers a move request of `handleBoardClick(x, y)`
with status `invalid`, then `boardString`, `pieces`, `currentPlayer`,
`gameOver` and `winner` are unchanged, and `selectedPiece` is a selection at
`(x, y)` of a piece of `currentPlayer` when `selectPiece(x, y)` succeeds and
null when it does not; a selection that remains is always at `(x, y)`. -/
theorem C12_invalid_move (sys : Sys) (i : Nat) (b : JsBoard) (m : String) (x y : Int)
    (resp : Response) (hreq : sys.pending.get? i = some (.movePiece b m x y))
    (hs : resp.status = "invalid") :
    (step sys (.response i (.data resp))).st.boardString = sys.st.boardString ∧
    (step sys (.response i (.data resp))).st.pieces = sys.st.pieces ∧
    (step sys (.response i (.data resp))).st.currentPlayer = sys.st.currentPlayer ∧
    (step sys (.response i (.data resp))).st.gameOver = sys.st.gameOver ∧
    (step sys (.response i (.data resp))).st.winner = sys.st.winner ∧
    ((selectPiece sys.st x y).2 = true →
      ∃ q ∈ sys.st.pieces, (q.x : Int) = x ∧ (q.y : Int) = y ∧ q.type = sys.st.currentPlayer ∧
        (step sys (.response i (.data resp))).st.selectedPiece =
          some { x := x, y := y, piece := q }) ∧
    ((selectPiece sys.st x y).2 = false →
      (step sys (.response i (.data resp))).st.selectedPiece = none) ∧
    (∀ sel, (step sys (.response i (.data resp))).st.selectedPiece = some sel →
      sel.x = x ∧ sel.y = y) := by
  have hr : ∀ resp', Reply.data resp = .data resp' → resp'.status ≠ "success" := by
    intro resp' he
    injection he with he
    rw [← he, hs]
    decide
  have h := moveAnswer_rejected_fields sys i b m x y (.data resp) hreq hr
  exact ⟨h.1, h.2.1, h.2.2.1, h.2.2.2.1, h.2.2.2.2.1, h.2.2.2.2.2.1, h.2.2.2.2.2.2.1,
    h.2.2.2.2.2.2.2.1⟩

set_option maxRecDepth 100000 in
/-- C12 on Scenario C: the rook at (0, 9) is selected, the cell (0, 8) is
clicked and the oracle rejects the move; (0, 8) is empty, so the selection is
cleared and the snapshot is the one before. -/
theorem C12_invalid_move_witness :
    (run moveInFlightTrace).pending = [Request.movePiece (.str startBoard) "0908" 0 8] ∧
    (selectPiece (run moveInFlightTrace).st 0 8).2 = false ∧
    (step (run moveInFlightTrace)
      (.response 0 (.data (statusAnswer "invalid" none)))).st.selectedPiece = none ∧
    (step (run moveInFlightTrace)
      (.response 0 (.data (statusAnswer "invalid" none)))).st.boardString =
        (run moveInFlightTrace).st.boardString :=
  ⟨by decide, by decide,
    (C12_invalid_move (run moveInFlightTrace) 0 (.str startBoard) "0908" 0 8
      (statusAnswer "invalid" none) (by decide) (by decide)).2.2.2.2.2.2.1 (by decide),
    by decide⟩

set_option maxRecDepth 100000 in
/-- C13 fails as stated: the rook at (0, 9) is selected, the empty cell
(0, 8) is clicked and the move request fails with a network error; the
selection that was there before the answer is gone afterwards. -/
theorem C13_selection_counterexample :
    (run moveInFlightTrace).st.selectedPiece =
      some { x := 0, y := 9, piece := mkPiece 0 9 } ∧
    (run moveFailedTrace).st.selectedPiece = none := by
  decide

/-- C13 as amended: when a move request of `handleBoardClick(x, y)` fails
(the call throws, or the status is neither `success` nor `invalid`), then
`boardString`, `pieces`, `currentPlayer`, `gameOver` and `winner` are
unchanged, and `selectedPiece` is treated as after an `invalid` answer: a
selection at `(x, y)` of a piece of `currentPlayer` when `selectPiece(x, y)`
succeeds, null when it does not. -/
theorem C13_failed_move (sys : Sys) (i : Nat) (b : JsBoard) (m : String) (x y : Int)
    (r : Reply) (hreq : sys.pending.get? i = some (.movePiece b m x y))
    (hfail : r.moveFailure = true) :
    (step sys (.response i r)).st.boardString = sys.st.boardString ∧
    (step sys (.response i r)).st.pieces = sys.st.pieces ∧
    (step sys (.response i r)).st.currentPlayer = sys.st.currentPlayer ∧
    (step sys (.response i r)).st.gameOver = sys.st.gameOver ∧
    (step sys (.response i r)).st.winner = sys.st.winner ∧
    ((selectPiece sys.st x y).2 = true →
      ∃ q ∈ sys.st.pieces, (q.x : Int) = x ∧ (q.y : Int) = y ∧ q.type = sys.st.currentPlayer ∧
        (step sys (.response i r)).st.selectedPiece = some { x := x, y := y, piece := q }) ∧
    ((selectPiece sys.st x y).2 = false →
      (step sys (.response i r)).st.selectedPiece = none) := by
  have hr : ∀ resp', r = .data resp' → resp'.status ≠ "success" := by
    intro resp' he hst
    rw [he] at hfail
    simp [Reply.moveFailure, hst] at hfail
  have h := moveAnswer_rejected_fields sys i b m x y r hreq hr
  exact ⟨h.1, h.2.1, h.2.2.1, h.2.2.2.1, h.2.2.2.2.1, h.2.2.2.2.2.1, h.2.2.2.2.2.2.1⟩

set_option maxRecDepth 100000 in
/-- C13 as amended, on the failed rook move: the snapshot and the turn are
the ones before, the selection is cleared because (0, 8) is empty. -/
theorem C13_failed_move_witness :
    (run moveInFlightTrace).pending = [Request.movePiece (.str startBoard) "0908" 0 8] ∧
    (Reply.throws "Network Error").moveFailure = true ∧
    (step (run moveInFlightTrace) (.response 0 (.throws "Network Error"))).st.currentPlayer =
      (run moveInFlightTrace).st.currentPlayer ∧
    (step (run moveInFlightTrace) (.response 0 (.throws "Network Error"))).st.selectedPiece =
      none :=
  ⟨by decide, by decide,
    (C13_failed_move (run moveInFlightTrace) 0 (.str startBoard) "0908" 0 8
      (.throws "Network Error") (by decide) (by decide)).2.2.1,
    by decide⟩

/-- The move that ends the game, away from the throw: when the oracle
answers a move request with status `success`,
`game_over` true, winner `w` and a board that `parseBoardString` accepts
without throwing (any string), then `gameOver` is true, `winner` is `w`,
`selectedPiece` is null, `boardString` and `pieces` hold the returned snapshot
and its decode, `currentPlayer` is not flipped, and no `makeAIMove` callback
is scheduled and no request issued. -/
theorem move_ends_game_of_decodable (sys : Sys) (i : Nat) (b : JsBoard) (m : String) (x y : Int)
    (resp : Response) (hreq : sys.pending.get? i = some (.movePiece b m x y))
    (hs : resp.status = "success") (hover : resp.game_over = true)
    (hp : (parseBoardString [] resp.board).2 = none) :
    (step sys (.response i (.data resp))).st.gameOver = true ∧
    (step sys (.response i (.data resp))).st.winner = resp.winner ∧
    (step sys (.response i (.data resp))).st.selectedPiece = none ∧
    (step sys (.response i (.data resp))).st.boardString = resp.board ∧
    (step sys (.response i (.data resp))).st.pieces = (parseBoardString [] resp.board).1 ∧
    (step sys (.response i (.data resp))).st.currentPlayer = sys.st.currentPlayer ∧
    (step sys (.response i (.data resp))).timers = sys.timers ∧
    (step sys (.response i (.data resp))).pending = sys.pending.eraseIdx i := by
  rw [moveAnswer_gameOver sys i b m x y resp hreq hs hp hover]
  exact ⟨rfl, rfl, rfl, rfl, rfl, rfl, rfl, rfl⟩

set_option maxRecDepth 100000 in
/-- Scenario D: the oracle accepts the rook move with
`game_over: true, winner: 'red'`. -/
theorem move_ends_game_of_decodable_example :
    (run moveInFlightTrace).pending = [Request.movePiece (.str startBoard) "0908" 0 8] ∧
    (step (run moveInFlightTrace)
      (.response 0 (.data (gameOverAnswer (.str startBoard) (some "red"))))).st.gameOver
        = true ∧
    (step (run moveInFlightTrace)
      (.response 0 (.data (gameOverAnswer (.str startBoard) (some "red"))))).st.winner
        = some "red" ∧
    (step (run moveInFlightTrace)
      (.response 0 (.data (gameOverAnswer (.str startBoard) (some "red"))))).timers = 0 :=
  ⟨by decide,
    (move_ends_game_of_decodable (run moveInFlightTrace) 0 (.str startBoard) "0908" 0 8
      (gameOverAnswer (.str startBoard) (some "red")) (by decide) (by decide) (by decide)
      (by decide)).1,
    by decide, by decide⟩

set_option maxRecDepth 100000 in
/-- C14 at the failing input: the oracle answers the rook move with
`{ status: 'success', game_over: true, winner: 'red' }` but without a board.
`boardString` becomes undefined and `pieces` empty, but `gameOver` is still
false and `winner` still the empty string. -/
theorem C14_game_over_without_board :
    (run moveInFlightTrace).st.gameOver = false ∧
    (run moveInFlightTrace).st.winner = some "" ∧
    (run gameOverWithoutBoardTrace).st.boardString = .undefined ∧
    (run gameOverWithoutBoardTrace).st.pieces = [] ∧
    (run gameOverWithoutBoardTrace).st.gameOver = false ∧
    (run gameOverWithoutBoardTrace).st.winner = some "" := by
  decide

/-! ## Claims on the terminal state and the automated turn -/

/-- `initGame` after an answer that is not a success: only `error` and
`loading` are written. -/
theorem initGameResume_rejected (s : State) (r : Reply)
    (hr : ∀ resp, r = .data resp → resp.status ≠ "success") :
    ∃ e, initGameResume s r = { s with error := e, loading := false } := by
  unfold initGameResume
  cases r with
  | throws m => exact ⟨_, rfl⟩
  | data resp =>
    have hs := hr resp rfl
    simp only [hs, if_false]
    exact ⟨_, rfl⟩

theorem not_success_of_isSuccessAnswer (i : Nat) (r : Reply)
    (h : (Event.response i r).isSuccessAnswer = false) :
    ∀ resp, r = .data resp → resp.status ≠ "success" := by
  intro resp he hst
  rw [he] at h
  simp [Event.isSuccessAnswer, hst] at h

/-- One event in a terminal state, other than an answer with status
`success`: the state stays terminal and the turn, the selection and the
snapshot are the ones before. -/
theorem terminal_step (sys : Sys) (e : Event) (hT : Terminal sys)
    (he : e.isSuccessAnswer = false) :
    Terminal (step sys e) ∧
    (step sys e).st.currentPlayer = sys.st.currentPlayer ∧
    (step sys e).st.selectedPiece = sys.st.selectedPiece ∧
    (step sys e).st.boardString = sys.st.boardString := by
  obtain ⟨hover, hpend⟩ := hT
  cases e with
  | initGame =>
    refine ⟨⟨hover, ?_⟩, rfl, rfl, rfl⟩
    intro req hreq
    rcases List.mem_append.mp hreq with h | h
    · exact hpend req h
    · simpa using h
  | restartGame =>
    refine ⟨⟨hover, ?_⟩, rfl, rfl, rfl⟩
    intro req hreq
    rcases List.mem_append.mp hreq with h | h
    · exact hpend req h
    · simpa using h
  | handleBoardClick x y =>
    have hc : step sys (.handleBoardClick x y) = sys := by
      show handleBoardClick sys x y = sys
      unfold handleBoardClick
      rw [if_pos (Or.inl hover)]
    rw [hc]
    exact ⟨⟨hover, hpend⟩, rfl, rfl, rfl⟩
  | timer =>
    have hc : step sys .timer = { sys with timers := sys.timers - 1 } := by
      unfold step
      simp only []
      split
      · rename_i h0
        obtain ⟨st, pending, timers⟩ := sys
        simp only at h0
        subst h0
        rfl
      · exact makeAIMove_blocked { sys with timers := sys.timers - 1 } (Or.inl hover)
    rw [hc]
    exact ⟨⟨hover, hpend⟩, rfl, rfl, rfl⟩
  | response i r =>
    cases hget : sys.pending.get? i with
    | none =>
      have hc : step sys (.response i r) = sys := by
        unfold step
        simp only [hget]
      rw [hc]
      exact ⟨⟨hover, hpend⟩, rfl, rfl, rfl⟩
    | some req =>
      have hmem : req ∈ sys.pending := List.get?_mem hget
      have hinit := hpend req hmem
      subst hinit
      obtain ⟨err, herr⟩ :=
        initGameResume_rejected sys.st r (not_success_of_isSuccessAnswer i r he)
      rw [step_initAnswer sys i r hget, herr]
      refine ⟨⟨hover, ?_⟩, rfl, rfl, rfl⟩
      intro req hreq
      exact hpend req (List.mem_of_mem_eraseIdx hreq)

theorem terminal_runFrom (evs : List Event) (sys : Sys) (hT : Terminal sys)
    (hev : ∀ e ∈ evs, e.isSuccessAnswer = false) :
    Terminal (runFrom sys evs) ∧
    (runFrom sys evs).st.currentPlayer = sys.st.currentPlayer ∧
    (runFrom sys evs).st.selectedPiece = sys.st.selectedPiece ∧
    (runFrom sys evs).st.boardString = sys.st.boardString := by
  induction evs generalizing sys with
  | nil => exact ⟨hT, rfl, rfl, rfl⟩
  | cons e t ih =>
    have h1 := terminal_step sys e hT (hev e (by simp))
    have h2 := ih (step sys e) h1.1 (fun e' he' => hev e' (by simp [he']))
    exact ⟨h2.1, h2.2.1.trans h1.2.1, h2.2.2.1.trans h1.2.2.1, h2.2.2.2.trans h1.2.2.2⟩

set_option maxRecDepth 100000 in
/-- C15 fails as stated: a move request is in flight when the game is
restarted, a second move request is issued in the new game, the first answer
ends the game and the second answer, which is not a restart, then flips the
turn and replaces the snapshot although `gameOver` is true. -/
theorem C15_terminal_counterexample :
    (run gameOverWithStaleMoveTrace).st.gameOver = true ∧
    (run gameOverWithStaleMoveTrace).st.currentPlayer = "red" ∧
    (run gameOverWithStaleMoveTrace).st.boardString = .str startBoard ∧
    (run gameOverWithStaleMoveTrace).pending =
      [Request.movePiece (.str startBoard) "0908" 0 8] ∧
    (step (run gameOverWithStaleMoveTrace)
      (.response 0 (boardReply (.str riverBoard)))).st.gameOver = true ∧
    (step (run gameOverWithStaleMoveTrace)
      (.response 0 (boardReply (.str riverBoard)))).st.currentPlayer = "black" ∧
    (step (run gameOverWithStaleMoveTrace)
      (.response 0 (boardReply (.str riverBoard)))).st.boardString = .str riverBoard := by
  decide

/-- C15 as amended: from a state in which `gameOver` is true and no move or
automated-turn request is outstanding, no sequence of events (commands,
`makeAIMove` callbacks, answers) changes `currentPlayer`, `selectedPiece` or
`boardString`, and `gameOver` stays true with no such request outstanding, as
long as no answer with status `success` (which can then only be the answer to
`initGame` / `restartGame`) arrives. -/
theorem C15_terminal_sink (sys : Sys) (evs : List Event)
    (hover : sys.st.gameOver = true)
    (hpend : ∀ req ∈ sys.pending, req = Request.initBoard)
    (hev : ∀ e ∈ evs, e.isSuccessAnswer = false) :
    (runFrom sys evs).st.gameOver = true ∧
    (∀ req ∈ (runFrom sys evs).pending, req = Request.initBoard) ∧
    (runFrom sys evs).st.currentPlayer = sys.st.currentPlayer ∧
    (runFrom sys evs).st.selectedPiece = sys.st.selectedPiece ∧
    (runFrom sys evs).st.boardString = sys.st.boardString := by
  have h := terminal_runFrom evs sys ⟨hover, hpend⟩ hev
  exact ⟨h.1.1, h.1.2, h.2.1, h.2.2.1, h.2.2.2⟩

set_option maxRecDepth 100000 in
/-- C15 as amended, after a game that ended with the rook move: clicks, a
restart whose `/init` call fails and a stray callback change nothing. -/
theorem C15_terminal_sink_witness :
    (run gameOverTrace).st.gameOver = true ∧ (run gameOverTrace).pending = [] ∧
    (runFrom (run gameOverTrace)
      [.handleBoardClick 0 9, .restartGame, .handleBoardClick 4 9,
        .response 0 (.throws "Network Error"), .timer,
        .handleBoardClick 0 9]).st.selectedPiece = (run gameOverTrace).st.selectedPiece ∧
    (runFrom (run gameOverTrace)
      [.handleBoardClick 0 9, .restartGame, .handleBoardClick 4 9,
        .response 0 (.throws "Network Error"), .timer,
        .handleBoardClick 0 9]).st.currentPlayer = (run gameOverTrace).st.currentPlayer :=
  ⟨by decide, by decide,
    (C15_terminal_sink (run gameOverTrace)
      [.handleBoardClick 0 9, .restartGame, .handleBoardClick 4 9,
        .response 0 (.throws "Network Error"), .timer, .handleBoardClick 0 9]
      (by decide) (by decide) (by decide)).2.2.2.1,
    by decide⟩

/-- `makeAIMove` when its guards pass: the request is issued with the current
snapshot, `aiThinking` and `error` are written. -/
theorem makeAIMove_pass (sys : Sys) (hg : sys.st.gameOver = false)
    (hl : sys.st.loading = false) (ha : sys.st.aiThinking = false)
    (hc : sys.st.currentPlayer = "black") :
    makeAIMove sys =
      { sys with
        st := { sys.st with aiThinking := true, error := "" }
        pending := sys.pending ++ [Request.blackAutoMove sys.st.boardString] } := by
  unfold makeAIMove
  simp [hg, hl, ha, hc]

/-- `makeAIMove` after a success answer whose board decodes. -/
theorem makeAIMoveResume_success (s : State) (resp : Response)
    (hs : resp.status = "success") (hp : (parseBoardString [] resp.new_board).2 = none) :
    makeAIMoveResume s (.data resp) =
      if resp.game_over = true then
        { s with
          boardString := resp.new_board
          pieces := (parseBoardString [] resp.new_board).1
          gameOver := true
          winner := resp.winner
          selectedPiece := none
          error := "游戏结束！" ++ (if resp.winner = some "red" then "红方" else "黑方") ++
            "获胜！"
          aiThinking := false }
      else
        { s with
          boardString := resp.new_board
          pieces := (parseBoardString [] resp.new_board).1
          currentPlayer := "red"
          selectedPiece := none
          aiThinking := false } := by
  have h := parseBoardString_of_ok s.pieces resp.new_board hp
  unfold makeAIMoveResume
  simp only [hs, if_true, h]
  split <;> rfl

/-- `makeAIMove` after an answer that is not a success: only `error` and
`aiThinking` are written. -/
theorem makeAIMoveResume_rejected (s : State) (r : Reply)
    (hr : ∀ resp, r = .data resp → resp.status ≠ "success") :
    ∃ e, makeAIMoveResume s r = { s with error := e, aiThinking := false } := by
  unfold makeAIMoveResume
  cases r with
  | throws m => exact ⟨_, rfl⟩
  | data resp =>
    have hs := hr resp rfl
    simp only [hs, if_false]
    exact ⟨_, rfl⟩

theorem get?_concat_length (l : List Request) (a : Request) :
    (l ++ [a]).get? l.length = some a := by
  rw [List.get?_eq_getElem?]
  exact List.getElem?_concat_length l a

theorem eraseIdx_concat_length (l : List Request) (a : Request) :
    (l ++ [a]).eraseIdx l.length = l := by
  rw [List.eraseIdx_append_of_length_le (Nat.le_refl _)]
  simp

/-- The automated turn away from the throw: when `makeAIMove` passes its
guards it issues the automated-turn
request; when the oracle answers that request with status `success` and a
`new_board` that `parseBoardString` accepts without throwing (any string),
then `boardString` is `response.new_board` and `pieces` its decode; with
`game_over` true `gameOver` is true, `winner` is `response.winner` and
`currentPlayer` is unchanged, otherwise `currentPlayer` is `red` and
`gameOver` is unchanged; in both cases `selectedPiece` is null and
`aiThinking` is false. -/
theorem auto_move_applied_of_decodable (sys : Sys) (resp : Response)
    (hg : sys.st.gameOver = false) (hl : sys.st.loading = false)
    (ha : sys.st.aiThinking = false) (hc : sys.st.currentPlayer = "black")
    (hs : resp.status = "success") (hp : (parseBoardString [] resp.new_board).2 = none) :
    makeAIMove sys =
      { sys with
        st := { sys.st with aiThinking := true, error := "" }
        pending := sys.pending ++ [Request.blackAutoMove sys.st.boardString] } ∧
    ∀ (now : Sys) (i : Nat) (b : JsBoard),
      now.pending.get? i = some (.blackAutoMove b) →
      (step now (.response i (.data resp))).st.boardString = resp.new_board ∧
      (step now (.response i (.data resp))).st.pieces =
        (parseBoardString [] resp.new_board).1 ∧
      (resp.game_over = true →
        (step now (.response i (.data resp))).st.gameOver = true ∧
        (step now (.response i (.data resp))).st.winner = resp.winner ∧
        (step now (.response i (.data resp))).st.currentPlayer = now.st.currentPlayer) ∧
      (resp.game_over = false →
        (step now (.response i (.data resp))).st.currentPlayer = "red" ∧
        (step now (.response i (.data resp))).st.gameOver = now.st.gameOver) ∧
      (step now (.response i (.data resp))).st.selectedPiece = none ∧
      (step now (.response i (.data resp))).st.aiThinking = false := by
  refine ⟨makeAIMove_pass sys hg hl ha hc, ?_⟩
  intro now i b hreq
  rw [step_autoAnswer now i b _ hreq, makeAIMoveResume_success now.st resp hs hp]
  by_cases hover : resp.game_over = true
  · rw [if_pos hover]
    refine ⟨rfl, rfl, fun _ => ⟨rfl, rfl, rfl⟩, fun h => ?_, rfl, rfl⟩
    rw [hover] at h
    cases h
  · rw [if_neg hover]
    exact ⟨rfl, rfl, fun h => absurd h hover, fun _ => ⟨rfl, rfl⟩, rfl, rfl⟩

set_option maxRecDepth 100000 in
/-- The automated turn after the rook move: the callback fires on black's
turn, the oracle
answers with a new snapshot, and the turn is red's again. -/
theorem auto_move_applied_of_decodable_example :
    (run blackTurnTrace).st.currentPlayer
      = "black" ∧
    (run autoInFlightTrace).pending = [Request.blackAutoMove (.str startBoard)] ∧
    (step (run autoInFlightTrace)
      (.response 0 (.data (autoAnswer (.str riverBoard) false none)))).st.boardString =
        (autoAnswer (.str riverBoard) false none).new_board ∧
    (step (run autoInFlightTrace)
      (.response 0 (.data (autoAnswer (.str riverBoard) false none)))).st.currentPlayer =
        "red" ∧
    (step (run autoInFlightTrace)
      (.response 0 (.data (autoAnswer (.str riverBoard) false none)))).st.aiThinking = false :=
  ⟨by decide, by decide,
    ((auto_move_applied_of_decodable
      (run blackTurnTrace)
      (autoAnswer (.str riverBoard) false none) (by decide) (by decide) (by decide)
      (by decide) (by decide) (by decide)).2
        (run autoInFlightTrace) 0 (.str startBoard) (by decide)).1,
    by decide, by decide⟩

set_option maxRecDepth 100000 in
/-- C16 at the failing input: `makeAIMove` has passed its guards on black's
turn and the oracle answers `{ status: 'success' }` without `new_board`.
`boardString` becomes undefined and `pieces` empty, but `currentPlayer` is
still `black`; with `game_over: true, winner: 'black'` in the same answer
`gameOver` is still false and `winner` still the empty string. -/
theorem C16_success_without_new_board :
    (run autoInFlightTrace).pending = [Request.blackAutoMove (.str startBoard)] ∧
    (step (run autoInFlightTrace)
      (.response 0 (.data (autoAnswer .undefined false none)))).st.boardString = .undefined ∧
    (step (run autoInFlightTrace)
      (.response 0 (.data (autoAnswer .undefined false none)))).st.pieces = [] ∧
    (step (run autoInFlightTrace)
      (.response 0 (.data (autoAnswer .undefined false none)))).st.currentPlayer = "black" ∧
    (step (run autoInFlightTrace)
      (.response 0 (.data (autoAnswer .undefined true (some "black"))))).st.gameOver
        = false ∧
    (step (run autoInFlightTrace)
      (.response 0 (.data (autoAnswer .undefined true (some "black"))))).st.winner
        = some "" := by
  decide

/-- C17: when `makeAIMove` passes its guards and the oracle call fails (it
throws, or the status is not `success`), then in whatever state the answer
arrives `boardString`, `pieces`, `currentPlayer`, `selectedPiece`, `gameOver`
and `winner` are unchanged, `aiThinking` is false, and the handler issues no
request and schedules no callback; when the answer comes right after the
request, `currentPlayer` is still `black`. -/
theorem C17_auto_move_failed (sys : Sys) (r : Reply)
    (hg : sys.st.gameOver = false) (hl : sys.st.loading = false)
    (ha : sys.st.aiThinking = false) (hc : sys.st.currentPlayer = "black")
    (hfail : r.autoFailure = true) :
    (∀ (now : Sys) (i : Nat) (b : JsBoard),
      now.pending.get? i = some (.blackAutoMove b) →
      (step now (.response i r)).st.boardString = now.st.boardString ∧
      (step now (.response i r)).st.pieces = now.st.pieces ∧
      (step now (.response i r)).st.currentPlayer = now.st.currentPlayer ∧
      (step now (.response i r)).st.selectedPiece = now.st.selectedPiece ∧
      (step now (.response i r)).st.gameOver = now.st.gameOver ∧
      (step now (.response i r)).st.winner = now.st.winner ∧
      (step now (.response i r)).st.aiThinking = false ∧
      (step now (.response i r)).pending = now.pending.eraseIdx i ∧
      (step now (.response i r)).timers = now.timers) ∧
    (step (makeAIMove sys) (.response sys.pending.length r)).st.currentPlayer = "black" ∧
    (step (makeAIMove sys) (.response sys.pending.length r)).pending = sys.pending ∧
    (step (makeAIMove sys) (.response sys.pending.length r)).timers = sys.timers := by
  have hr : ∀ resp, r = .data resp → resp.status ≠ "success" := by
    intro resp he hst
    rw [he] at hfail
    simp [Reply.autoFailure, hst] at hfail
  have hgen : ∀ (now : Sys) (i : Nat) (b : JsBoard),
      now.pending.get? i = some (.blackAutoMove b) →
      (step now (.response i r)).st.boardString = now.st.boardString ∧
      (step now (.response i r)).st.pieces = now.st.pieces ∧
      (step now (.response i r)).st.currentPlayer = now.st.currentPlayer ∧
      (step now (.response i r)).st.selectedPiece = now.st.selectedPiece ∧
      (step now (.response i r)).st.gameOver = now.st.gameOver ∧
      (step now (.response i r)).st.winner = now.st.winner ∧
      (step now (.response i r)).st.aiThinking = false ∧
      (step now (.response i r)).pending = now.pending.eraseIdx i ∧
      (step now (.response i r)).timers = now.timers := by
    intro now i b hreq
    obtain ⟨e, he⟩ := makeAIMoveResume_rejected now.st r hr
    rw [step_autoAnswer now i b _ hreq, he]
    exact ⟨rfl, rfl, rfl, rfl, rfl, rfl, rfl, rfl, rfl⟩
  refine ⟨hgen, ?_⟩
  have hpass := makeAIMove_pass sys hg hl ha hc
  have hreq : (makeAIMove sys).pending.get? sys.pending.length =
      some (.blackAutoMove sys.st.boardString) := by
    rw [hpass]
    exact get?_concat_length _ _
  have h := hgen (makeAIMove sys) sys.pending.length _ hreq
  refine ⟨?_, ?_, ?_⟩
  · rw [h.2.2.1, hpass]
    exact hc
  · rw [h.2.2.2.2.2.2.2.1, hpass]
    exact eraseIdx_concat_length _ _
  · rw [h.2.2.2.2.2.2.2.2, hpass]

set_option maxRecDepth 100000 in
/-- C17 after the rook move: the callback fires on black's turn and the
oracle call fails; the turn stays with black and nothing is outstanding or
scheduled. -/
theorem C17_auto_move_failed_witness :
    (run blackTurnTrace).st.currentPlayer = "black" ∧
    (Reply.throws "timeout").autoFailure = true ∧
    (run autoInFlightTrace).pending = [Request.blackAutoMove (.str startBoard)] ∧
    (step (run autoInFlightTrace) (.response 0 (.throws "timeout"))).st.aiThinking = false ∧
    (step (run autoInFlightTrace) (.response 0 (.throws "timeout"))).st.currentPlayer =
      "black" ∧
    (step (run autoInFlightTrace) (.response 0 (.throws "timeout"))).pending = [] ∧
    (step (run autoInFlightTrace) (.response 0 (.throws "timeout"))).timers = 0 :=
  ⟨by decide, by decide, by decide,
    ((C17_auto_move_failed (run blackTurnTrace) (.throws "timeout") (by decide) (by decide)
      (by decide) (by decide) (by decide)).1
        (run autoInFlightTrace) 0 (.str startBoard) (by decide)).2.2.2.2.2.2.1,
    by decide, by decide, by decide⟩

/-! ## Single flight -/

theorem filter_eraseIdx_length (p : Request → Bool) (l : List Request) (i : Nat)
    (a : Request) (h : l.get? i = some a) :
    ((l.eraseIdx i).filter p).length + (if p a = true then 1 else 0) =
      (l.filter p).length := by
  induction l generalizing i with
  | nil => simp at h
  | cons b t ih =>
    cases i with
    | zero =>
      simp only [List.get?_cons_zero, Option.some.injEq] at h
      subst h
      simp only [List.eraseIdx_cons_zero, List.filter_cons]
      by_cases hp : p b = true <;> simp [hp]
    | succ j =>
      simp only [List.get?_cons_succ] at h
      have := ih j h
      simp only [List.eraseIdx_cons_succ, List.filter_cons]
      by_cases hp : p b = true
      · simp only [hp, if_true, List.length_cons]
        omega
      · simp only [hp, if_false]
        exact this

theorem movePieceResume_frame (sys : Sys) (r : Reply) :
    (movePieceResume sys r).1.pending = sys.pending ∧
    (movePieceResume sys r).1.st.aiThinking = sys.st.aiThinking := by
  unfold movePieceResume
  cases r with
  | throws m => exact ⟨rfl, rfl⟩
  | data response =>
    simp only []
    repeat' split
    all_goals exact ⟨rfl, rfl⟩

theorem handleBoardClickResume_frame (sys : Sys) (x y : Int) (b : Bool) :
    (handleBoardClickResume sys x y b).pending = sys.pending ∧
    (handleBoardClickResume sys x y b).st.aiThinking = sys.st.aiThinking := by
  cases b with
  | true =>
    rw [handleBoardClickResume_true]
    exact ⟨rfl, rfl⟩
  | false =>
    rcases handleBoardClickResume_false sys x y with e | ⟨q, _, _, _, _, e⟩ <;>
      (rw [e]; exact ⟨rfl, rfl⟩)

theorem initGameResume_aiThinking (s : State) (r : Reply) :
    (initGameResume s r).aiThinking = s.aiThinking := by
  unfold initGameResume
  cases r with
  | throws m => rfl
  | data response =>
    simp only []
    repeat' split
    all_goals rfl

theorem makeAIMoveResume_aiThinking (s : State) (r : Reply) :
    (makeAIMoveResume s r).aiThinking = false := by
  unfold makeAIMoveResume
  rfl

/-- What the answer to the `i`-th outstanding call does to the list of
outstanding calls and to `aiThinking`. -/
theorem step_response_frame (sys : Sys) (i : Nat) (r : Reply) (req : Request)
    (hreq : sys.pending.get? i = some req) :
    (step sys (.response i r)).pending = sys.pending.eraseIdx i ∧
    (req.isAuto = false → (step sys (.response i r)).st.aiThinking = sys.st.aiThinking) ∧
    (req.isAuto = true → (step sys (.response i r)).st.aiThinking = false) := by
  cases req with
  | initBoard =>
    rw [step_initAnswer sys i r hreq]
    exact ⟨rfl, fun _ => initGameResume_aiThinking _ _,
      fun h => absurd h (by simp [Request.isAuto])⟩
  | movePiece b m x y =>
    rw [step_moveAnswer sys i b m x y r hreq]
    have h1 := movePieceResume_frame { sys with pending := sys.pending.eraseIdx i } r
    have h2 := handleBoardClickResume_frame
      (movePieceResume { sys with pending := sys.pending.eraseIdx i } r).1 x y
      (movePieceResume { sys with pending := sys.pending.eraseIdx i } r).2
    exact ⟨h2.1.trans h1.1, fun _ => h2.2.trans h1.2,
      fun h => absurd h (by simp [Request.isAuto])⟩
  | blackAutoMove b =>
    rw [step_autoAnswer sys i b r hreq]
    exact ⟨rfl, fun h => absurd h (by simp [Request.isAuto]),
      fun _ => makeAIMoveResume_aiThinking _ _⟩

/-- The three outcomes of `handleBoardClick`: nothing, a change of the
selection only, or a move request issued while neither busy flag was set. -/
theorem handleBoardClick_cases (sys : Sys) (x y : Int) :
    handleBoardClick sys x y = sys ∨
    (∃ v, handleBoardClick sys x y = { sys with st := { sys.st with selectedPiece := v } }) ∨
    (∃ b m, sys.st.loading = false ∧ sys.st.aiThinking = false ∧
      handleBoardClick sys x y =
        { sys with
          st := { sys.st with loading := true, error := "" }
          pending := sys.pending ++ [Request.movePiece b m x y] }) := by
  by_cases hg : sys.st.gameOver = true ∨ sys.st.loading = true ∨ sys.st.aiThinking = true
  · left
    unfold handleBoardClick
    rw [if_pos hg]
  · by_cases hturn : sys.st.gameMode = "human_vs_ai" ∧ sys.st.currentPlayer = "black"
    · left
      unfold handleBoardClick
      rw [if_neg hg, if_pos hturn]
    · have hg1 : sys.st.gameOver = false := by
        cases h : sys.st.gameOver
        · rfl
        · exact absurd (Or.inl h) hg
      have hl : sys.st.loading = false := by
        cases h : sys.st.loading
        · rfl
        · exact absurd (Or.inr (Or.inl h)) hg
      have ha : sys.st.aiThinking = false := by
        cases h : sys.st.aiThinking
        · rfl
        · exact absurd (Or.inr (Or.inr h)) hg
      cases hsel : sys.st.selectedPiece with
      | some sel =>
        right
        right
        exact ⟨_, _, hl, ha, handleBoardClick_move sys x y sel hg1 hl ha hturn hsel⟩
      | none =>
        right
        left
        unfold handleBoardClick
        rw [if_neg hg, if_neg hturn]
        simp only [hsel]
        rcases selectPiece_cases sys.st x y with e | ⟨q, _, _, _, _, e⟩
        · rw [e]
          exact ⟨none, by rw [← hsel]⟩
        · rw [e]
          exact ⟨_, rfl⟩

/-- The two outcomes of `makeAIMove`: nothing, or the request issued while
neither busy flag was set. -/
theorem makeAIMove_cases (sys : Sys) :
    makeAIMove sys = sys ∨
    (sys.st.loading = false ∧ sys.st.aiThinking = false ∧
      makeAIMove sys =
        { sys with
          st := { sys.st with aiThinking := true, error := "" }
          pending := sys.pending ++ [Request.blackAutoMove sys.st.boardString] }) := by
  by_cases hg : sys.st.gameOver = true ∨ sys.st.loading = true ∨ sys.st.aiThinking = true ∨
      sys.st.currentPlayer ≠ "black"
  · exact Or.inl (makeAIMove_blocked sys hg)
  · right
    have hg1 : sys.st.gameOver = false := by
      cases h : sys.st.gameOver
      · rfl
      · exact absurd (Or.inl h) hg
    have hl : sys.st.loading = false := by
      cases h : sys.st.loading
      · rfl
      · exact absurd (Or.inr (Or.inl h)) hg
    have ha : sys.st.aiThinking = false := by
      cases h : sys.st.aiThinking
      · rfl
      · exact absurd (Or.inr (Or.inr (Or.inl h))) hg
    have hc : sys.st.currentPlayer = "black" := by
      by_contra h
      exact hg (Or.inr (Or.inr (Or.inr h)))
    exact ⟨hl, ha, makeAIMove_pass sys hg1 hl ha hc⟩

theorem autoCount_append_other (sys : Sys) (st : State) (req : Request) (t : Nat)
    (h : req.isAuto = false) :
    autoCount { st := st, pending := sys.pending ++ [req], timers := t } = autoCount sys := by
  unfold autoCount
  simp [List.filter_append, h]

theorem autoInv_step (sys : Sys) (e : Event) (h : AutoInv sys) : AutoInv (step sys e) := by
  obtain ⟨hle, hai⟩ := h
  cases e with
  | initGame =>
    have hc : autoCount (step sys .initGame) = autoCount sys :=
      autoCount_append_other sys _ .initBoard _ rfl
    exact ⟨hc ▸ hle, fun hpos => hai (hc ▸ hpos)⟩
  | restartGame =>
    have hc : autoCount (step sys .restartGame) = autoCount sys :=
      autoCount_append_other sys _ .initBoard _ rfl
    exact ⟨hc ▸ hle, fun hpos => hai (hc ▸ hpos)⟩
  | handleBoardClick x y =>
    show AutoInv (handleBoardClick sys x y)
    rcases handleBoardClick_cases sys x y with e | ⟨v, e⟩ | ⟨b, m, _, _, e⟩
    · rw [e]
      exact ⟨hle, hai⟩
    · rw [e]
      exact ⟨hle, hai⟩
    · rw [e]
      have hc := autoCount_append_other sys { sys.st with loading := true, error := "" }
        (.movePiece b m x y) sys.timers rfl
      exact ⟨hc ▸ hle, fun hpos => hai (hc ▸ hpos)⟩
  | timer =>
    unfold step
    simp only []
    split
    · exact ⟨hle, hai⟩
    · rcases makeAIMove_cases { sys with timers := sys.timers - 1 } with e | ⟨_, ha, e⟩
      · rw [e]
        exact ⟨hle, hai⟩
      · rw [e]
        have h0 : autoCount sys = 0 := by
          by_contra hne
          have := hai (Nat.pos_of_ne_zero hne)
          simp only at ha
          rw [this] at ha
          cases ha
        have hc : autoCount
            { st := { sys.st with aiThinking := true, error := "" }
              pending := sys.pending ++ [Request.blackAutoMove sys.st.boardString]
              timers := sys.timers - 1 } = 1 := by
          unfold autoCount at h0 ⊢
          simp [List.filter_append, Request.isAuto, h0]
        exact ⟨by rw [hc], fun _ => rfl⟩
  | response i r =>
    cases hget : sys.pending.get? i with
    | none =>
      have hc : step sys (.response i r) = sys := by
        unfold step
        simp only [hget]
      rw [hc]
      exact ⟨hle, hai⟩
    | some req =>
      obtain ⟨hp, hother, hauto⟩ := step_response_frame sys i r req hget
      have hcount := filter_eraseIdx_length Request.isAuto sys.pending i req hget
      have hnew : autoCount (step sys (.response i r)) =
          ((sys.pending.eraseIdx i).filter Request.isAuto).length := by
        unfold autoCount
        rw [hp]
      cases hk : req.isAuto with
      | false =>
        simp only [hk, Bool.false_eq_true, if_false, Nat.add_zero] at hcount
        have hc : autoCount (step sys (.response i r)) = autoCount sys := by
          rw [hnew, hcount]
          rfl
        refine ⟨hc ▸ hle, fun hpos => ?_⟩
        rw [hother hk]
        exact hai (hc ▸ hpos)
      | true =>
        simp only [hk, if_true] at hcount
        have hc : autoCount (step sys (.response i r)) = 0 := by
          rw [hnew]
          unfold autoCount at hle
          omega
        exact ⟨by rw [hc]; omega, fun hpos => by rw [hc] at hpos; cases hpos⟩

theorem autoInv_runFrom (evs : List Event) (sys : Sys) (h : AutoInv sys) :
    AutoInv (runFrom sys evs) := by
  induction evs generalizing sys with
  | nil => exact h
  | cons e t ih => exact ih (step sys e) (autoInv_step sys e h)

theorem makeAIMoveResume_loading (s : State) (r : Reply) :
    (makeAIMoveResume s r).loading = s.loading := by
  unfold makeAIMoveResume
  cases r with
  | throws m => rfl
  | data response =>
    simp only []
    repeat' split
    all_goals rfl

theorem moveCount_le_loadCount (sys : Sys) : moveCount sys ≤ loadCount sys := by
  unfold moveCount loadCount
  generalize sys.pending = l
  induction l with
  | nil => simp
  | cons a t ih =>
    cases a with
    | initBoard =>
      simp only [List.filter_cons, Request.isMove, Request.isLoading, Request.isAuto]
      simp only [Bool.false_eq_true, if_false, Bool.not_false, if_true, List.length_cons]
      omega
    | movePiece b m x y =>
      simp only [List.filter_cons, Request.isMove, Request.isLoading, Request.isAuto]
      simp only [Bool.not_false, if_true, List.length_cons]
      omega
    | blackAutoMove b =>
      simp only [List.filter_cons, Request.isMove, Request.isLoading, Request.isAuto]
      simp only [Bool.false_eq_true, if_false, Bool.not_true]
      exact ih

theorem loadCount_append (sys : Sys) (st : State) (req : Request) (t : Nat) :
    loadCount { st := st, pending := sys.pending ++ [req], timers := t } =
      loadCount sys + (if req.isLoading = true then 1 else 0) := by
  unfold loadCount
  by_cases h : req.isLoading = true <;> simp [List.filter_append, h]

theorem moveCount_append (sys : Sys) (st : State) (req : Request) (t : Nat) :
    moveCount { st := st, pending := sys.pending ++ [req], timers := t } =
      moveCount sys + (if req.isMove = true then 1 else 0) := by
  unfold moveCount
  by_cases h : req.isMove = true <;> simp [List.filter_append, h]

theorem autoCount_append (sys : Sys) (st : State) (req : Request) (t : Nat) :
    autoCount { st := st, pending := sys.pending ++ [req], timers := t } =
      autoCount sys + (if req.isAuto = true then 1 else 0) := by
  unfold autoCount
  by_cases h : req.isAuto = true <;> simp [List.filter_append, h]

/-- What the answer to the `i`-th outstanding call does to the three
counts. -/
theorem step_response_counts (sys : Sys) (i : Nat) (r : Reply) (req : Request)
    (hreq : sys.pending.get? i = some req) :
    loadCount (step sys (.response i r)) + (if req.isLoading = true then 1 else 0) =
      loadCount sys ∧
    moveCount (step sys (.response i r)) ≤ moveCount sys ∧
    autoCount (step sys (.response i r)) ≤ autoCount sys := by
  obtain ⟨hp, _, _⟩ := step_response_frame sys i r req hreq
  have h1 := filter_eraseIdx_length Request.isLoading sys.pending i req hreq
  have h2 := filter_eraseIdx_length Request.isMove sys.pending i req hreq
  have h3 := filter_eraseIdx_length Request.isAuto sys.pending i req hreq
  unfold loadCount moveCount autoCount
  rw [hp]
  refine ⟨h1, ?_, ?_⟩
  · omega
  · omega

/-- The answer to an automated-turn request does not write `loading`. -/
theorem step_autoAnswer_loading (sys : Sys) (i : Nat) (r : Reply) (req : Request)
    (hreq : sys.pending.get? i = some req) (hk : req.isLoading = false) :
    (step sys (.response i r)).st.loading = sys.st.loading := by
  cases req with
  | initBoard => simp [Request.isLoading, Request.isAuto] at hk
  | movePiece b m x y => simp [Request.isLoading, Request.isAuto] at hk
  | blackAutoMove b =>
    rw [step_autoAnswer sys i b r hreq]
    exact makeAIMoveResume_loading _ _

theorem flightInv_idle (sys : Sys) (h : FlightInv sys) (hl : sys.st.loading = false) :
    loadCount sys = 0 := by
  by_contra hne
  have := h.2 (Nat.pos_of_ne_zero hne)
  rw [this] at hl
  cases hl

theorem autoInv_idle (sys : Sys) (h : AutoInv sys) (ha : sys.st.aiThinking = false) :
    autoCount sys = 0 := by
  by_contra hne
  have := h.2 (Nat.pos_of_ne_zero hne)
  rw [this] at ha
  cases ha

/-- One event keeps the single-flight invariants, when a restart is only
called while no `initBoard` or human-move request is outstanding. -/
theorem flightInv_step (sys : Sys) (e : Event) (h : FlightInv sys) (hauto : AutoInv sys)
    (hnb : moveCount sys = 0 ∨ autoCount sys = 0)
    (hq : e.isRestart = true → loadCount sys = 0) :
    FlightInv (step sys e) ∧
    (moveCount (step sys e) = 0 ∨ autoCount (step sys e) = 0) := by
  cases e with
  | initGame =>
    have h0 := hq rfl
    have hl := loadCount_append sys { sys.st with loading := true, error := "" }
      .initBoard sys.timers
    have hm := moveCount_append sys { sys.st with loading := true, error := "" }
      .initBoard sys.timers
    have ha := autoCount_append sys { sys.st with loading := true, error := "" }
      .initBoard sys.timers
    simp only [Request.isLoading, Request.isAuto, Request.isMove, Bool.not_false, if_true,
      Bool.false_eq_true, if_false, Nat.add_zero] at hl hm ha
    refine ⟨⟨?_, fun _ => rfl⟩, ?_⟩
    · show loadCount (initGame sys) ≤ 1
      unfold initGame
      rw [hl, h0]
    · show moveCount (initGame sys) = 0 ∨ autoCount (initGame sys) = 0
      unfold initGame
      rw [hm, ha]
      exact hnb
  | restartGame =>
    have h0 := hq rfl
    have hl := loadCount_append sys { sys.st with loading := true, error := "" }
      .initBoard sys.timers
    have hm := moveCount_append sys { sys.st with loading := true, error := "" }
      .initBoard sys.timers
    have ha := autoCount_append sys { sys.st with loading := true, error := "" }
      .initBoard sys.timers
    simp only [Request.isLoading, Request.isAuto, Request.isMove, Bool.not_false, if_true,
      Bool.false_eq_true, if_false, Nat.add_zero] at hl hm ha
    refine ⟨⟨?_, fun _ => rfl⟩, ?_⟩
    · show loadCount (initGame sys) ≤ 1
      unfold initGame
      rw [hl, h0]
    · show moveCount (initGame sys) = 0 ∨ autoCount (initGame sys) = 0
      unfold initGame
      rw [hm, ha]
      exact hnb
  | handleBoardClick x y =>
    show FlightInv (handleBoardClick sys x y) ∧
      (moveCount (handleBoardClick sys x y) = 0 ∨ autoCount (handleBoardClick sys x y) = 0)
    rcases handleBoardClick_cases sys x y with e | ⟨v, e⟩ | ⟨b, m, hl, ha, e⟩
    · rw [e]
      exact ⟨h, hnb⟩
    · rw [e]
      exact ⟨h, hnb⟩
    · rw [e]
      have h0 := flightInv_idle sys h hl
      have ha0 := autoInv_idle sys hauto ha
      have hlc := loadCount_append sys { sys.st with loading := true, error := "" }
        (.movePiece b m x y) sys.timers
      have hac := autoCount_append sys { sys.st with loading := true, error := "" }
        (.movePiece b m x y) sys.timers
      simp only [Request.isLoading, Request.isAuto, Bool.not_false, if_true,
        Bool.false_eq_true, if_false, Nat.add_zero] at hlc hac
      refine ⟨⟨?_, fun _ => rfl⟩, Or.inr ?_⟩
      · rw [hlc, h0]
      · rw [hac, ha0]
  | timer =>
    unfold step
    simp only []
    split
    · exact ⟨h, hnb⟩
    · rcases makeAIMove_cases { sys with timers := sys.timers - 1 } with e | ⟨hl, _, e⟩
      · rw [e]
        exact ⟨h, hnb⟩
      · rw [e]
        have h0 := flightInv_idle sys h hl
        have hm0 : moveCount sys = 0 := by
          have := moveCount_le_loadCount sys
          omega
        have hlc := loadCount_append sys { sys.st with aiThinking := true, error := "" }
          (.blackAutoMove sys.st.boardString) (sys.timers - 1)
        have hmc := moveCount_append sys { sys.st with aiThinking := true, error := "" }
          (.blackAutoMove sys.st.boardString) (sys.timers - 1)
        simp only [Request.isLoading, Request.isAuto, Request.isMove, Bool.not_true,
          Bool.false_eq_true, if_false, Nat.add_zero] at hlc hmc
        refine ⟨⟨?_, fun hpos => ?_⟩, Or.inl ?_⟩
        · show loadCount _ ≤ 1
          rw [hlc, h0]
          omega
        · rw [hlc, h0] at hpos
          cases hpos
        · rw [hmc, hm0]
  | response i r =>
    cases hget : sys.pending.get? i with
    | none =>
      have hc : step sys (.response i r) = sys := by
        unfold step
        simp only [hget]
      rw [hc]
      exact ⟨h, hnb⟩
    | some req =>
      obtain ⟨hlc, hmc, hac⟩ := step_response_counts sys i r req hget
      refine ⟨?_, ?_⟩
      · cases hk : req.isLoading with
        | true =>
          simp only [hk, if_true] at hlc
          have h1 := h.1
          have h0 : loadCount (step sys (.response i r)) = 0 := by omega
          exact ⟨by rw [h0]; omega, fun hpos => by rw [h0] at hpos; cases hpos⟩
        | false =>
          simp only [hk, Bool.false_eq_true, if_false, Nat.add_zero] at hlc
          refine ⟨by rw [hlc]; exact h.1, fun hpos => ?_⟩
          rw [step_autoAnswer_loading sys i r req hget hk]
          rw [hlc] at hpos
          exact h.2 hpos
      · rcases hnb with h0 | h0
        · exact Or.inl (by omega)
        · exact Or.inr (by omega)

theorem flightInv_runFrom (evs : List Event) (sys : Sys) (h : FlightInv sys)
    (hauto : AutoInv sys) (hnb : moveCount sys = 0 ∨ autoCount sys = 0)
    (hq : restartsIdle sys evs = true) :
    FlightInv (runFrom sys evs) ∧
    (moveCount (runFrom sys evs) = 0 ∨ autoCount (runFrom sys evs) = 0) := by
  induction evs generalizing sys with
  | nil => exact ⟨h, hnb⟩
  | cons e t ih =>
    unfold restartsIdle at hq
    rw [Bool.and_eq_true] at hq
    have hstep := flightInv_step sys e h hauto hnb (by
      intro hr
      have h1 := hq.1
      rw [hr] at h1
      simpa using h1)
    exact ih (step sys e) hstep.1 (autoInv_step sys e hauto) hstep.2 hq.2

set_option maxRecDepth 100000 in
/-- C18 fails as stated: a move request is in flight when the game is
restarted; the `/init` answer resets `loading`, a piece is selected and moved
in the new game, and two human-move requests are outstanding. The same
happens when `initGame` is called twice before `/init` answers. -/
theorem C18_two_moves_counterexample :
    (run twoMovesTrace).pending =
      [Request.movePiece (.str startBoard) "0908" 0 8,
       Request.movePiece (.str startBoard) "0908" 0 8] ∧
    moveCount (run twoMovesTrace) = 2 ∧
    moveCount (run doubleInitTrace) = 2 := by
  decide

/-- C18 as amended: in every reachable state at most one automated-turn
request is outstanding; and in every state reached by a sequence of events in
which `initGame` / `restartGame` is only called while no `initBoard` and no
human-move request is outstanding (it may be called during an automated-turn
request), at most one human-move request is outstanding, and never a
human-move and an automated-turn request together. -/
theorem C18_single_flight (evs : List Event) :
    autoCount (run evs) ≤ 1 ∧
    (restartsIdle Sys.init evs = true →
      moveCount (run evs) ≤ 1 ∧
      (moveCount (run evs) = 0 ∨ autoCount (run evs) = 0)) := by
  have hauto0 : AutoInv Sys.init := ⟨by decide, fun h => by cases h⟩
  refine ⟨(autoInv_runFrom evs Sys.init hauto0).1, ?_⟩
  intro hq
  have h := flightInv_runFrom evs Sys.init ⟨by decide, fun h => by cases h⟩ hauto0
    (Or.inl (by decide)) hq
  have hle := moveCount_le_loadCount (run evs)
  have h1 : loadCount (run evs) ≤ 1 := h.1.1
  exact ⟨by omega, h.2⟩

set_option maxRecDepth 100000 in
/-- C18 as amended, on a game that is restarted while the automated-turn
request is outstanding: afterwards the automated turn is answered, red moves,
and that move request is the only one outstanding. -/
theorem C18_single_flight_witness :
    (run autoInFlightTrace).pending = [Request.blackAutoMove (.str startBoard)] ∧
    restartsIdle Sys.init restartDuringAutoTrace = true ∧
    moveCount (run restartDuringAutoTrace) = 1 ∧
    autoCount (run restartDuringAutoTrace) ≤ 1 ∧
    moveCount (run restartDuringAutoTrace) ≤ 1 ∧
    (moveCount (run restartDuringAutoTrace) = 0 ∨
      autoCount (run restartDuringAutoTrace) = 0) :=
  ⟨by decide, by decide, by decide, (C18_single_flight restartDuringAutoTrace).1,
    (C18_single_flight restartDuringAutoTrace).2 (by decide)⟩

/-! ## Partial application and piece ids -/

set_option maxRecDepth 100000 in
/-- C19 at a `success` answer without a board: after the move answer
`boardString` is undefined and `pieces` is empty, while `currentPlayer`,
`gameOver` and `winner` are what they were and no callback is scheduled; the
same happens on the automated turn with an answer without `new_board`. -/
theorem C19_partial_application :
    (run moveInFlightTrace).st.boardString = .str startBoard ∧
    (run moveInFlightTrace).st.pieces.length = 32 ∧
    (run moveInFlightTrace).st.currentPlayer = "red" ∧
    (run moveWithoutBoardTrace).st.boardString = .undefined ∧
    (run moveWithoutBoardTrace).st.pieces = [] ∧
    (run moveWithoutBoardTrace).st.currentPlayer = "red" ∧
    (run moveWithoutBoardTrace).st.gameOver = false ∧
    (run moveWithoutBoardTrace).st.winner = (run moveInFlightTrace).st.winner ∧
    (run moveWithoutBoardTrace).timers = 0 ∧
    (run autoInFlightTrace).st.boardString = .str startBoard ∧
    (run autoInFlightTrace).st.currentPlayer = "black" ∧
    (step (run autoInFlightTrace)
      (.response 0 (.data (autoAnswer .undefined false none)))).st.boardString = .undefined ∧
    (step (run autoInFlightTrace)
      (.response 0 (.data (autoAnswer .undefined false none)))).st.pieces = [] ∧
    (step (run autoInFlightTrace)
      (.response 0 (.data (autoAnswer .undefined false none)))).st.currentPlayer = "black" ∧
    (step (run autoInFlightTrace)
      (.response 0 (.data (autoAnswer .undefined false none)))).st.gameOver = false := by
  decide

/-- The decoded cells of a 180-character snapshot, source against
specification. -/
theorem parseBoardString_cells (s : List Nat) (prior : List Piece) (h : s.length = 180) :
    (parseBoardString prior (.str s)).1.map (fun p => (p.x, p.y)) = specDecode s := by
  unfold parseBoardString specDecode
  simp only [h, ne_eq, not_true_eq_false, if_false, List.take_zero]
  rw [foldl_slotStep, List.nil_append]
  apply flatMap_slotStep_spec
  intro k hk
  have := List.mem_range.mp hk
  omega

theorem idCell_mkPiece (x y : Nat) (hx : x ≤ 8) (hy : y ≤ 9) :
    idCell (mkPiece x y).id = some (x, y) := by
  interval_cases x <;> interval_cases y <;> decide

/-- Two decoded pieces have the same id exactly when they are on the same
cell, and they are then the same record. -/
theorem id_eq_iff_cell (prior : List Piece) (b : JsBoard) (p q : Piece)
    (hp : p ∈ (parseBoardString prior b).1) (hq : q ∈ (parseBoardString prior b).1) :
    (p.id = q.id ↔ p.x = q.x ∧ p.y = q.y) ∧ (p.id = q.id → p = q) := by
  obtain ⟨px, py, hpx, hpy, rfl⟩ := mem_parseBoardString prior b p hp
  obtain ⟨qx, qy, hqx, hqy, rfl⟩ := mem_parseBoardString prior b q hq
  have hinj : (mkPiece px py).id = (mkPiece qx qy).id → px = qx ∧ py = qy := by
    intro hid
    have h1 := idCell_mkPiece px py hpx hpy
    have h2 := idCell_mkPiece qx qy hqx hqy
    rw [hid, h2] at h1
    injection h1 with h1
    injection h1 with h3 h4
    exact ⟨h3.symm, h4.symm⟩
  refine ⟨⟨fun hid => ?_, fun hxy => ?_⟩, fun hid => ?_⟩
  · rw [mkPiece_x, mkPiece_x, mkPiece_y, mkPiece_y]
    exact hinj hid
  · rw [mkPiece_x, mkPiece_x, mkPiece_y, mkPiece_y] at hxy
    rw [hxy.1, hxy.2]
  · obtain ⟨h1, h2⟩ := hinj hid
    rw [h1, h2]

set_option maxRecDepth 100000 in
/-- C20: within one `parseBoardString` result two pieces have the same id
exactly when they have the same `(x, y)`; so for a 180-character snapshot in
which no two kept slots name the same cell the ids are pairwise distinct; and
the snapshot `0000` followed by 88 empty slots keeps both pieces, with equal
ids. -/
theorem C20_piece_ids :
    (∀ (prior : List Piece) (b : JsBoard) (p q : Piece),
      p ∈ (parseBoardString prior b).1 → q ∈ (parseBoardString prior b).1 →
      (p.id = q.id ↔ p.x = q.x ∧ p.y = q.y)) ∧
    (∀ (prior : List Piece) (s : List Nat), s.length = 180 → (specDecode s).Nodup →
      ((parseBoardString prior (.str s)).1.map (fun p => p.id)).Nodup) ∧
    (duplicateBoard.length = 180 ∧ specDecode duplicateBoard = [(0, 0), (0, 0)] ∧
      (parseBoardString [] (.str duplicateBoard)).1.map (fun p => p.id) =
        ["black_0_0", "black_0_0"]) := by
  refine ⟨fun prior b p q hp hq => (id_eq_iff_cell prior b p q hp hq).1, ?_, by decide⟩
  intro prior s hlen hnd
  rw [← parseBoardString_cells s prior hlen] at hnd
  have hpieces := List.Nodup.of_map _ hnd
  refine List.Nodup.map_on ?_ hpieces
  intro p hp q hq hid
  exact (id_eq_iff_cell prior (.str s) p q hp hq).2 hid

set_option maxRecDepth 100000 in
/-- C20 on the opening snapshot: no two kept slots name the same cell, the 32
ids are pairwise distinct, and the two rooks of row 0 have different ids. -/
theorem C20_piece_ids_witness :
    startBoard.length = 180 ∧ (specDecode startBoard).Nodup ∧
    ((parseBoardString [] (.str startBoard)).1.map (fun p => p.id)).Nodup ∧
    ((mkPiece 0 0).id = (mkPiece 8 0).id ↔
      (mkPiece 0 0).x = (mkPiece 8 0).x ∧ (mkPiece 0 0).y = (mkPiece 8 0).y) :=
  ⟨by decide, by decide,
    C20_piece_ids.2.1 [] startBoard (by decide) (by decide),
    C20_piece_ids.1 [] (.str startBoard) (mkPiece 0 0) (mkPiece 8 0) (by decide)
      (by decide)⟩

end ChessAug
